import Mathlib

/-!
# FeDHCP: the `onmetal` plugin

A shallow embedding of `plugins/onmetal/plugin.go` (`handler6`) and
`plugins/onmetal/k8s.go` (`K8sClient.createIpamIP`).

* Go values that are mutated in place (`resp`, the object store behind
  `client.Client`) are passed and returned explicitly.
* A Go run-time panic is the `Except.error` case of a result; a Go `error`
  value is a `GoError`.
* A byte is a natural number below 256; arithmetic on a byte is reduced modulo 256.
-/

namespace FeDHCP

/-! ## Errors -/

/-- The reason carried by a Kubernetes API status error (`metav1.StatusReason`). -/
inductive StatusReason where
  | NotFound
  | AlreadyExists
  | Conflict
  | Timeout
  | InternalError
  deriving DecidableEq

/-- A Go `error` value: a plain error, a Kubernetes API status error, or an error wrapped by
`errors.Wrapf` with its format string and formatted arguments. -/
inductive GoError where
  | plain (msg : String)
  | status (reason : StatusReason) (msg : String)
  | wrapf (cause : GoError) (format : String) (args : List String)
  deriving DecidableEq

/-! ## Addresses (`net`) -/

/-- `net.IP`: a slice of bytes. -/
abbrev net.IP := List Nat

/-- `net.HardwareAddr`: a slice of bytes. -/
abbrev net.HardwareAddr := List Nat

/-! ## DHCPv6 messages (the part of `github.com/insomniacslk/dhcp/dhcpv6` that `handler6` uses) -/

/-- `time.Duration`: a number of nanoseconds. -/
abbrev Duration := Int

/-- `time.Hour`. -/
def Hour : Duration := 3600 * 1000000000

/-- `dhcpv6.OptionIANA`. -/
def OptionIANA : Nat := 3

/-- `dhcpv6.OptionIAAddr`. -/
def OptionIAAddr : Nat := 5

/-- `dhcpv6.OptionRelayMsg`. -/
def OptionRelayMsg : Nat := 9

mutual
/-- `dhcpv6.Message`: a client/server message. -/
inductive Message where
  | mk (MessageType : Nat) (TransactionID : List Nat) (Options : List Opt)
/-- `dhcpv6.RelayMessage`: a relay-forward / relay-reply message. -/
inductive RelayMessage where
  | mk (MessageType : Nat) (HopCount : Nat) (LinkAddr : net.IP) (PeerAddr : net.IP)
      (Options : List Opt)
/-- The interface `dhcpv6.DHCPv6`, implemented by `*Message` and `*RelayMessage`. -/
inductive DHCPv6 where
  | message (m : Message)
  | relay (r : RelayMessage)
/-- `dhcpv6.OptIANA`. -/
inductive OptIANA where
  | mk (IaId : List Nat) (T1 T2 : Duration) (Options : List Opt)
/-- `dhcpv6.OptIAAddress`. -/
inductive OptIAAddress where
  | mk (IPv6Addr : net.IP) (PreferredLifetime ValidLifetime : Duration) (Options : List Opt)
/-- The interface `dhcpv6.Option`: the option types `handler6` meets, and `OptionGeneric`
for every other option. -/
inductive Opt where
  | iana (o : OptIANA)
  | iaaddr (o : OptIAAddress)
  | relayMsg (relayMessage : DHCPv6)
  | generic (OptionCode : Nat) (OptionData : List Nat)
end

/-- `Option.Code()`. -/
def Opt.Code : Opt → Nat
  | .iana _ => OptionIANA
  | .iaaddr _ => OptionIAAddr
  | .relayMsg _ => OptionRelayMsg
  | .generic c _ => c

def Message.Options : Message → List Opt
  | .mk _ _ opts => opts

def RelayMessage.LinkAddr : RelayMessage → net.IP
  | .mk _ _ l _ _ => l

def RelayMessage.Options : RelayMessage → List Opt
  | .mk _ _ _ _ opts => opts

def OptIANA.IaId : OptIANA → List Nat
  | .mk i _ _ _ => i

/-- `DHCPv6.IsRelay()`. -/
def DHCPv6.IsRelay : DHCPv6 → Bool
  | .message _ => false
  | .relay _ => true

/-- `Options.Get(code)`: every option with the given code, in order. -/
def Options.Get (o : List Opt) (code : Nat) : List Opt :=
  o.filter (fun x => x.Code = code)

/-- `Options.GetOne(code)`: the first option with the given code. -/
def Options.GetOne (o : List Opt) (code : Nat) : Option Opt :=
  o.find? (fun x => x.Code = code)

/-- `MessageOptions.IANA()`: every option with code `OptionIANA`, each type-asserted to
`*OptIANA`; the assertion panics on an option of another type. Options decoded from a packet
have the type of their code, so it can only fail on an option list built by hand. -/
def MessageOptions.IANA (o : List Opt) : Except String (List OptIANA) :=
  (Options.Get o OptionIANA).mapM (fun x =>
    match x with
    | .iana i => .ok i
    | _ => .error "interface conversion: dhcpv6.Option is not *dhcpv6.OptIANA")

/-- `MessageOptions.OneIANA()`: the first IA_NA option, or nil. -/
def MessageOptions.OneIANA (o : List Opt) : Except String (Option OptIANA) :=
  match MessageOptions.IANA o with
  | .error p => .error p
  | .ok ianas => .ok ianas.head?

/-- `RelayOptions.RelayMessage()`: the message carried by the first relay-message option, or
nil when there is none or it has another type. -/
def RelayOptions.RelayMessage (o : List Opt) : Option DHCPv6 :=
  match Options.GetOne o OptionRelayMsg with
  | some (.relayMsg d) => some d
  | _ => none

/-- `dhcpv6.DecapsulateRelay`: one level of relay unwrapping. -/
def DecapsulateRelay (l : DHCPv6) : Except GoError DHCPv6 :=
  match l with
  | .message m => .ok (.message m)
  | .relay r =>
    match RelayOptions.RelayMessage r.Options with
    | some rm => .ok rm
    | none => .error (.plain "malformed Relay message: no OptRelayMessage found")

mutual
/-- `DHCPv6.GetInnerMessage()`: unwraps relay messages until a `*Message` is reached. The Go
loop `for { p, err = DecapsulateRelay(p); ... }` is written as a recursion on the nesting. -/
def DHCPv6.GetInnerMessage : DHCPv6 → Except GoError Message
  | .message m => .ok m
  | .relay r => r.GetInnerMessage
/-- `RelayMessage.GetInnerMessage()`. -/
def RelayMessage.GetInnerMessage : RelayMessage → Except GoError Message
  | .mk _ _ _ _ opts => GetInnerMessage.search opts
/-- The search for the first relay-message option, fused with the unwrapping of what it
carries. -/
def GetInnerMessage.search : List Opt → Except GoError Message
  | [] => .error (.plain "malformed Relay message: no OptRelayMessage found")
  | o :: rest =>
    if o.Code = OptionRelayMsg then
      match o with
      | .relayMsg d => d.GetInnerMessage
      | _ => .error (.plain "malformed Relay message: no OptRelayMessage found")
    else GetInnerMessage.search rest
end

/-- `DHCPv6.AddOption(option)`: appends to the message's option list. -/
def DHCPv6.AddOption : DHCPv6 → Opt → DHCPv6
  | .message (.mk t x opts), o => .message (.mk t x (opts ++ [o]))
  | .relay (.mk t h l p opts), o => .relay (.mk t h l p (opts ++ [o]))

/-- The option list of a message of either kind. -/
def DHCPv6.Options : DHCPv6 → List Opt
  | .message m => m.Options
  | .relay r => r.Options

/-! ## `plugins/onmetal/plugin.go` -/

/-- `handler6(req, resp)`, for a request and a response object (neither is nil). The result
is `.error` when the Go code panics, otherwise the returned pair: the response (`none` is a
nil response) and the chain-break flag. `resp` is mutated in place by the Go code; here the
mutated response is the one returned. The index `len(ipaddr)-1` is out of range exactly
when the link address is empty. -/
def handler6 (req resp : DHCPv6) : Except String (Option DHCPv6 × Bool) :=
  if !req.IsRelay then
    .ok (none, true)
  else
    match req with
    | .message _ => .error "interface conversion: dhcpv6.DHCPv6 is not *dhcpv6.RelayMessage"
    | .relay relayMsg =>
      let ipaddr := relayMsg.LinkAddr
      if h : ipaddr.length - 1 < ipaddr.length then
        let ipaddr := ipaddr.set (ipaddr.length - 1) ((ipaddr.get ⟨ipaddr.length - 1, h⟩ + 1) % 256)
        match req.GetInnerMessage with
        | .error _ => .ok (none, true)
        | .ok m =>
          match MessageOptions.OneIANA m.Options with
          | .error p => .error p
          | .ok none => .ok (some resp, false)
          | .ok (some iana) =>
            let resp := resp.AddOption (.iana (.mk iana.IaId 0 0
              [.iaaddr (.mk ipaddr (24 * Hour) (24 * Hour) [])]))
            .ok (some resp, false)
      else
        .error "index out of range [-1]"

/-! ## Text forms (`net`, `strings`) -/

/-- The loop of `HardwareAddr.String()` over the bytes; `first` is the Go test `i > 0`
negated. -/
def net.HardwareAddr.String.go : List Nat → Bool → List Char
  | [], _ => []
  | b :: rest, first =>
    (if first then [] else [':']) ++ [Nat.digitChar (b / 16), Nat.digitChar (b % 16)]
      ++ net.HardwareAddr.String.go rest false

/-- `HardwareAddr.String()`: the bytes as two lowercase hex digits each, joined by `:`. -/
def net.HardwareAddr.String (a : net.HardwareAddr) : String :=
  String.mk (net.HardwareAddr.String.go a true)

/-- `IP.To4()`: the 4-byte form of an IPv4 address (4 bytes, or 16 bytes IPv4-mapped), else nil. -/
def net.IP.To4 (ip : net.IP) : Option net.IP :=
  if ip.length = 4 then some ip
  else if ip.length = 16 ∧ (ip.take 10).all (fun b => b == 0) ∧ ip.getD 10 0 = 255
      ∧ ip.getD 11 0 = 255 then some (ip.drop 12)
  else none

/-- The `i`-th 16-bit group of a 16-byte address. -/
def net.IP.v6u16 (ip : net.IP) (i : Nat) : Nat :=
  ip.getD (2 * i) 0 * 256 + ip.getD (2 * i + 1) 0

/-- The inner loop `for j < 8 && ip.v6u16(j) == 0 { j++ }`; it runs at most 8 times. -/
def net.IP.zeroRunEnd (ip : net.IP) : Nat → Nat → Nat
  | 0, j => j
  | fuel + 1, j => if j < 8 ∧ net.IP.v6u16 ip j = 0 then net.IP.zeroRunEnd ip fuel (j + 1) else j

/-- The first longest run of at least two zero groups, as (start, end); (255, 255) if none. -/
def net.IP.longestZeroRun (ip : net.IP) : Nat × Nat :=
  (List.range 8).foldl (fun z i =>
    let j := net.IP.zeroRunEnd ip 8 i
    if j - i ≥ 2 ∧ j - i > z.2 - z.1 then (i, j) else z) (255, 255)

/-- The printing loop of the IPv6 text form, from group `i` on; it runs at most 8 times. -/
def net.IP.appendTo6 (ip : net.IP) (z : Nat × Nat) : Nat → Nat → List Char
  | 0, _ => []
  | fuel + 1, i =>
    if i < 8 then
      if i = z.1 then
        [':', ':'] ++
          (if z.2 < 8 then
            Nat.toDigits 16 (net.IP.v6u16 ip z.2) ++ net.IP.appendTo6 ip z fuel (z.2 + 1)
          else [])
      else
        (if i > 0 then [':'] else []) ++ Nat.toDigits 16 (net.IP.v6u16 ip i)
          ++ net.IP.appendTo6 ip z fuel (i + 1)
    else []

/-- `IP.String()`: `<nil>` for the empty slice, `?` and the hex bytes for a slice of a wrong
length, dotted decimal for an IPv4 address, and the canonical IPv6 text otherwise. -/
def net.IP.String (ip : net.IP) : String :=
  if ip.length = 0 then "<nil>"
  else if ip.length ≠ 4 ∧ ip.length ≠ 16 then
    String.mk ('?' :: ip.flatMap (fun b => [Nat.digitChar (b / 16), Nat.digitChar (b % 16)]))
  else
    match net.IP.To4 ip with
    | some p4 => String.mk (List.intercalate ['.'] (p4.map (Nat.toDigits 10)))
    | none => String.mk (net.IP.appendTo6 ip (net.IP.longestZeroRun ip) 8 0)

/-- The scan of `strings.ReplaceAll` for a non-empty `old`: `skip` counts the characters of a
matched occurrence still to be passed over. -/
def strings.ReplaceAll.scan (old new : List Char) : Nat → List Char → List Char
  | _, [] => []
  | skip + 1, _ :: cs => strings.ReplaceAll.scan old new skip cs
  | 0, c :: cs =>
    if old.isPrefixOf (c :: cs) then new ++ strings.ReplaceAll.scan old new (old.length - 1) cs
    else c :: strings.ReplaceAll.scan old new 0 cs

/-- `strings.ReplaceAll(s, old, new)`: every non-overlapping occurrence of `old`, from the
left, replaced by `new`; for an empty `old`, `new` goes before every character and after the
last one. -/
def strings.ReplaceAll (s old new : String) : String :=
  if old.data = [] then String.mk (s.data.flatMap (fun c => new.data ++ [c]) ++ new.data)
  else String.mk (strings.ReplaceAll.scan old.data new.data 0 s.data)

/-! ## Kubernetes objects (`metav1`, `corev1`, `ipamv1alpha1`) -/

/-- `metav1.ObjectMeta`: name, namespace and labels, and the fields the API server fills in. -/
structure metav1.ObjectMeta where
  Name : String
  Namespace : String
  Labels : List (String × String)
  UID : String := ""
  ResourceVersion : String := ""
  Finalizers : List String := []
  DeletionTimestamp : Option String := none
  deriving DecidableEq

/-- `corev1.LocalObjectReference`. -/
structure corev1.LocalObjectReference where
  Name : String
  deriving DecidableEq

/-- `ipamv1alpha1.ResourceReference`. -/
structure ipamv1alpha1.ResourceReference where
  APIVersion : String
  Kind : String
  Name : String
  deriving DecidableEq

/-- `ipamv1alpha1.IPAddr`: a parsed address, by its bytes (4 for IPv4, 16 for IPv6). -/
structure ipamv1alpha1.IPAddr where
  Net : List Nat
  deriving DecidableEq

/-- `ipamv1alpha1.IPSpec`: the subnet reference, the consumer reference and the address;
`none` is a nil pointer. -/
structure ipamv1alpha1.IPSpec where
  Subnet : corev1.LocalObjectReference
  Consumer : Option ipamv1alpha1.ResourceReference := none
  IP : Option ipamv1alpha1.IPAddr := none
  deriving DecidableEq

/-- `ipamv1alpha1.IPStatus`. -/
structure ipamv1alpha1.IPStatus where
  State : String := ""
  Reserved : Option ipamv1alpha1.IPAddr := none
  Message : String := ""
  deriving DecidableEq

/-- `ipamv1alpha1.IP`: the address-reservation record. -/
structure ipamv1alpha1.IP where
  ObjectMeta : metav1.ObjectMeta
  Spec : ipamv1alpha1.IPSpec
  Status : ipamv1alpha1.IPStatus := {}
  deriving DecidableEq

/-- `client.ObjectKey` (`types.NamespacedName`). -/
structure client.ObjectKey where
  Namespace : String
  Name : String
  deriving DecidableEq

/-- `client.ObjectKeyFromObject`. -/
def client.ObjectKeyFromObject (obj : ipamv1alpha1.IP) : client.ObjectKey :=
  { Namespace := obj.ObjectMeta.Namespace, Name := obj.ObjectMeta.Name }

/-- The walk of `apierrors.IsNotFound` along the chain of wrapped errors. -/
def apierrors.IsNotFound.go : GoError → Bool
  | .plain _ => false
  | .status r _ => r == StatusReason.NotFound
  | .wrapf c _ _ => apierrors.IsNotFound.go c

/-- `apierrors.IsNotFound(err)`: whether the error, or an error it wraps, is a status error
with reason `NotFound`; false for nil. -/
def apierrors.IsNotFound : Option GoError → Bool
  | none => false
  | some e => apierrors.IsNotFound.go e

/-- `reflect.DeepEqual` on two `IPSpec` values: pointers are followed, every field counts. -/
def reflect.DeepEqual (a b : ipamv1alpha1.IPSpec) : Bool :=
  decide (a = b)

/-- The interface `client.Client`, as far as `createIpamIP` uses it, over a store state `σ`.
`Get` takes the object to fill and returns it, filled on success. -/
structure client.Client (σ : Type) where
  Get : client.ObjectKey → ipamv1alpha1.IP → σ → (Option GoError × ipamv1alpha1.IP) × σ
  Delete : ipamv1alpha1.IP → σ → Option GoError × σ
  Create : ipamv1alpha1.IP → σ → Option GoError × σ

/-! ## `plugins/onmetal/k8s.go` -/

/-- The constant `origin`. -/
def origin : String := "dhcp"

/-- `K8sClient`. -/
structure K8sClient (σ : Type) where
  Client : client.Client σ
  Namespace : String
  Subnet : String

/-- The struct literal `ipamIP` of `createIpamIP`, for the parsed address `ip`. -/
def K8sClient.ipamIP {σ : Type} (k : K8sClient σ) (ip : ipamv1alpha1.IPAddr) (ipaddr : net.IP)
    (mac : net.HardwareAddr) : ipamv1alpha1.IP :=
  let macKey := strings.ReplaceAll (net.HardwareAddr.String mac) ":" ""
  let name := macKey ++ "-" ++ origin
  { ObjectMeta :=
      { Name := name
        Namespace := k.Namespace
        Labels :=
          [("ip", strings.ReplaceAll (net.IP.String ipaddr) ":" "_"),
           ("mac", macKey),
           ("origin", origin)] }
    Spec :=
      { IP := some ip
        Subnet := { Name := k.Subnet } } }

/-- `K8sClient.createIpamIP(ipaddr, mac)`, run on the store state `s`: the returned error
(`none` is nil) and the store state afterwards. `IPAddrFromString` is the address parser of
the ipam API package. The Go flag `createIpamIP` and the final `if createIpamIP` are the
local function `create`, called where the flag is set. A wrapped error keeps the format string
and the formatted arguments; on a parse failure the argument is the nil `*IPAddr`. -/
def K8sClient.createIpamIP {σ : Type} (k : K8sClient σ)
    (IPAddrFromString : String → Except GoError ipamv1alpha1.IPAddr)
    (ipaddr : net.IP) (mac : net.HardwareAddr) (s : σ) : Option GoError × σ :=
  match IPAddrFromString (net.IP.String ipaddr) with
  | .error err => (some (.wrapf err "Failed to parse IP %s" ["<nil>"]), s)
  | .ok ip =>
    let ipamIP := k.ipamIP ip ipaddr mac
    let existingIpamIP := ipamIP
    match k.Client.Get (client.ObjectKeyFromObject ipamIP) existingIpamIP s with
    | ((err, existingIpamIP), s) =>
      if err.isSome ∧ !apierrors.IsNotFound err then
        (err.map (fun e => .wrapf e "Failed to get IP %s in namespace %s"
          [ipamIP.ObjectMeta.Name, ipamIP.ObjectMeta.Namespace]), s)
      else
        let create (s : σ) : Option GoError × σ :=
          match k.Client.Create ipamIP s with
          | (some err, s) =>
            (some (.wrapf err "Failed to create IP %s in namespace %s"
              [ipamIP.ObjectMeta.Name, ipamIP.ObjectMeta.Namespace]), s)
          | (none, s) => (none, s)
        if apierrors.IsNotFound err then
          create s
        else if !reflect.DeepEqual ipamIP.Spec existingIpamIP.Spec then
          match k.Client.Delete existingIpamIP s with
          | (some err, s) =>
            (some (.wrapf err "Failed to delete IP %s in namespace %s"
              [existingIpamIP.ObjectMeta.Name, existingIpamIP.ObjectMeta.Namespace]), s)
          | (none, s) => create s
        else
          (none, s)

/-! ## The environment: instrumented and in-memory clients -/

/-- A call issued on a `client.Client`. -/
inductive Call where
  | get (key : client.ObjectKey)
  | delete (obj : ipamv1alpha1.IP)
  | create (obj : ipamv1alpha1.IP)
  deriving DecidableEq

/-- A client that behaves as `c` and records, in order, every call with the store state the
call left behind. -/
def client.logged {σ : Type} (c : client.Client σ) : client.Client (σ × List (Call × σ)) where
  Get key into s :=
    match c.Get key into s.1 with
    | (r, s1) => (r, (s1, s.2 ++ [(Call.get key, s1)]))
  Delete obj s :=
    match c.Delete obj s.1 with
    | (r, s1) => (r, (s1, s.2 ++ [(Call.delete obj, s1)]))
  Create obj s :=
    match c.Create obj s.1 with
    | (r, s1) => (r, (s1, s.2 ++ [(Call.create obj, s1)]))

/-- The content of the object store: the records it holds. -/
abbrev Store := List ipamv1alpha1.IP

/-- The record stored under a key. -/
def Store.lookup (s : Store) (key : client.ObjectKey) : Option ipamv1alpha1.IP :=
  s.find? (fun o => client.ObjectKeyFromObject o = key)

/-- The records stored under a key. -/
def Store.under (s : Store) (key : client.ObjectKey) : List ipamv1alpha1.IP :=
  s.filter (fun o => client.ObjectKeyFromObject o = key)

/-- The store without the records under a key. -/
def Store.remove (s : Store) (key : client.ObjectKey) : Store :=
  s.filter (fun o => client.ObjectKeyFromObject o ≠ key)

/-- The record once its deletion has been asked for while it carries finalizers: the API
server stamps it and keeps it. The time itself is not modelled. -/
def ipamv1alpha1.IP.markDeleted (o : ipamv1alpha1.IP) : ipamv1alpha1.IP :=
  { o with ObjectMeta := { o.ObjectMeta with DeletionTimestamp := some "deleting" } }

/-- The store with the records under a key stamped for deletion. -/
def Store.markDeleted (s : Store) (key : client.ObjectKey) : Store :=
  s.map (fun o => if client.ObjectKeyFromObject o = key then o.markDeleted else o)

/-- The invariant of an object store: a namespace and a name identify at most one record. -/
def Store.WF (s : Store) : Prop :=
  (s.map client.ObjectKeyFromObject).Nodup

instance Store.decidableWF (s : Store) : Decidable (Store.WF s) := by
  unfold Store.WF
  infer_instance

/-- An object store held in memory, with the contract of the API server: get and delete
report `NotFound` for a missing record, create reports `AlreadyExists` for a present one, and
no operation fails otherwise. A delete removes a record without finalizers at once; a record
with finalizers is stamped for deletion and stays in the store, and the delete still returns
nil. -/
def memClient : client.Client Store where
  Get key into s :=
    match Store.lookup s key with
    | some o => ((none, o), s)
    | none => ((some (.status .NotFound "not found"), into), s)
  Delete obj s :=
    match Store.lookup s (client.ObjectKeyFromObject obj) with
    | some o =>
      if o.ObjectMeta.Finalizers = [] then
        (none, Store.remove s (client.ObjectKeyFromObject obj))
      else
        (none, Store.markDeleted s (client.ObjectKeyFromObject obj))
    | none => (some (.status .NotFound "not found"), s)
  Create obj s :=
    match Store.lookup s (client.ObjectKeyFromObject obj) with
    | some _ => (some (.status .AlreadyExists "already exists"), s)
    | none => (none, s ++ [obj])

/-- The in-memory store with a concurrent writer: right after a read by this client, the
other writer creates `rival` (if no record of that key exists yet). -/
def racingClient (rival : ipamv1alpha1.IP) : client.Client Store where
  Get key into s :=
    match memClient.Get key into s with
    | (r, s1) => (r, (memClient.Create rival s1).2)
  Delete := memClient.Delete
  Create := memClient.Create

/-- The in-memory store behind a failing connection: an operation for which an error is
given fails with it and leaves the store alone. -/
def failingClient (getErr deleteErr createErr : Option GoError) : client.Client Store where
  Get key into s :=
    match getErr with
    | some e => ((some e, into), s)
    | none => memClient.Get key into s
  Delete obj s :=
    match deleteErr with
    | some e => (some e, s)
    | none => memClient.Delete obj s
  Create obj s :=
    match createErr with
    | some e => (some e, s)
    | none => memClient.Create obj s

/-- An address parser given by a finite table of texts; every other text is rejected. -/
def tableParser (table : List (String × ipamv1alpha1.IPAddr)) (text : String) :
    Except GoError ipamv1alpha1.IPAddr :=
  match table.lookup text with
  | some a => .ok a
  | none => .error (.plain "unable to parse IP")


/-! ## Example inputs -/

/-- The link-local address `fe80::a8bb:ccff:fedd:eeff`. -/
def exampleLinkAddr : net.IP := [254, 128, 0, 0, 0, 0, 0, 0, 168, 187, 204, 255, 254, 221, 238, 255]

/-- A link-local address whose low-order byte is 255. -/
def exampleLinkAddrFF : net.IP := [254, 128, 0, 0, 0, 0, 0, 0, 0, 0, 0, 0, 0, 0, 1, 255]

/-- The loopback address `::1`. -/
def exampleLoopback : net.IP := [0, 0, 0, 0, 0, 0, 0, 0, 0, 0, 0, 0, 0, 0, 0, 1]

/-- An IA_NA option as a client sends it. -/
def exampleIANA : OptIANA := .mk [0, 0, 0, 7] 0 0 []

/-- A Request message (type 3) asking for an address. -/
def exampleRequest : Message := .mk 3 [1, 2, 3] [.generic 1 [0, 1], .iana exampleIANA]

/-- A Request message (type 3) that asks for no address. -/
def exampleRequestNoIA : Message := .mk 3 [1, 2, 3] [.generic 1 [0, 1]]

/-- A Reply message (type 7) as the server prepares it. -/
def exampleReply : DHCPv6 := .message (.mk 7 [1, 2, 3] [.generic 2 [0, 2]])

/-- A Relay-Forward message, relayed twice, whose link address ends in 255. -/
def exampleRelayFF : RelayMessage :=
  .mk 12 1 exampleLinkAddrFF exampleLoopback
    [.generic 18 [1], .relayMsg (.relay (.mk 12 0 exampleLinkAddr exampleLoopback
      [.relayMsg (.message exampleRequest)]))]

/-- A Relay-Forward message carrying `exampleRequestNoIA`. -/
def exampleRelayNoIA : RelayMessage :=
  .mk 12 0 exampleLinkAddr exampleLoopback [.relayMsg (.message exampleRequestNoIA)]

/-- A Relay-Forward message without a relay-message option. -/
def exampleRelayNoInner : RelayMessage :=
  .mk 12 0 exampleLinkAddr exampleLoopback [.generic 18 [1]]

/-- The `K8sClient` whose client records its calls. -/
def K8sClient.logged {σ : Type} (k : K8sClient σ) : K8sClient (σ × List (Call × σ)) :=
  { Client := client.logged k.Client, Namespace := k.Namespace, Subnet := k.Subnet }

/-- The `K8sClient` on the in-memory store. -/
def memK8s (Namespace Subnet : String) : K8sClient Store :=
  { Client := memClient, Namespace := Namespace, Subnet := Subnet }

/-- The MAC address `aa:bb:cc:dd:ee:ff`. -/
def exampleMAC : net.HardwareAddr := [170, 187, 204, 221, 238, 255]

/-- The address `2001:db8::1`. -/
def exampleOtherAddr : net.IP := [32, 1, 13, 184, 0, 0, 0, 0, 0, 0, 0, 0, 0, 0, 0, 1]

/-- The address parser on the texts of the two example addresses. -/
def exampleParser : String → Except GoError ipamv1alpha1.IPAddr :=
  tableParser
    [("fe80::a8bb:ccff:fedd:eeff", { Net := exampleLinkAddr }),
     ("2001:db8::1", { Net := exampleOtherAddr })]

/-- The client of the examples: namespace `metal`, subnet `dhcp-subnet`. -/
def exampleK : K8sClient Store := memK8s "metal" "dhcp-subnet"

/-- The record `createIpamIP` writes for `exampleMAC` and `exampleLinkAddr`. -/
def exampleRecord : ipamv1alpha1.IP :=
  exampleK.ipamIP { Net := exampleLinkAddr } exampleLinkAddr exampleMAC

/-- The record of `exampleMAC` with the desired address and subnet, and a consumer
reference. -/
def exampleConsumedRecord : ipamv1alpha1.IP :=
  { exampleRecord with
    Spec :=
      { IP := some { Net := exampleLinkAddr }
        Subnet := { Name := "dhcp-subnet" }
        Consumer := some { APIVersion := "v1", Kind := "Machine", Name := "compute-1" } } }

/-- The record of `exampleMAC` with another address, held by a finalizer. -/
def exampleHeldRecord : ipamv1alpha1.IP :=
  { ObjectMeta :=
      { Name := "aabbccddeeff-dhcp"
        Namespace := "metal"
        Labels := [("ip", "2001_db8__1"), ("mac", "aabbccddeeff"), ("origin", "dhcp")]
        UID := "5f2c"
        ResourceVersion := "42"
        Finalizers := ["ipam/finalizer"] }
    Spec := { IP := some { Net := exampleOtherAddr }, Subnet := { Name := "dhcp-subnet" } }
    Status := { State := "Finished", Reserved := some { Net := exampleOtherAddr } } }

/-- The in-memory store on which a second handler of the same request wins the race: it
creates `exampleRecord` right after the read of this one. -/
def exampleRacingK : K8sClient Store :=
  { Client := racingClient exampleRecord, Namespace := "metal", Subnet := "dhcp-subnet" }

/-- The in-memory store behind a connection that refuses every read. -/
def exampleUnreachableK : K8sClient Store :=
  { Client := failingClient (some (.plain "connection refused")) none none
    Namespace := "metal", Subnet := "dhcp-subnet" }

/-- The in-memory store on which every delete is refused. -/
def exampleReadOnlyK : K8sClient Store :=
  { Client := failingClient none (some (.status .InternalError "forbidden")) none
    Namespace := "metal", Subnet := "dhcp-subnet" }

/-! ## Properties of `handler6` -/

theorem set_last_eq_dropLast_append (l : List Nat) (v : Nat) (h : l ≠ []) :
    l.set (l.length - 1) v = l.dropLast ++ [v] := by
  induction l with
  | nil => exact absurd rfl h
  | cons a t ih =>
    cases t with
    | nil => rfl
    | cons b t =>
      have := ih (by simp)
      simp only [List.length_cons, Nat.add_sub_cancel] at this ⊢
      simp [List.set, List.dropLast, this]

/-- On a relay message with a non-empty link address `handler6` is this case distinction. -/
theorem handler6_relay_eq (r : RelayMessage) (resp : DHCPv6) (hl : r.LinkAddr ≠ []) :
    handler6 (.relay r) resp =
      match (DHCPv6.relay r).GetInnerMessage with
      | .error _ => .ok (none, true)
      | .ok m =>
        match MessageOptions.OneIANA m.Options with
        | .error p => .error p
        | .ok none => .ok (some resp, false)
        | .ok (some iana) =>
          .ok (some (resp.AddOption (.iana (.mk iana.IaId 0 0
            [.iaaddr (.mk (r.LinkAddr.dropLast ++ [(r.LinkAddr.getLast hl + 1) % 256])
              (24 * Hour) (24 * Hour) [])]))), false) := by
  have hlen : r.LinkAddr.length - 1 < r.LinkAddr.length := by
    have : 0 < r.LinkAddr.length := List.length_pos.mpr hl
    omega
  have hget : r.LinkAddr.get ⟨r.LinkAddr.length - 1, hlen⟩ = r.LinkAddr.getLast hl := by
    rw [List.getLast_eq_getElem]; rfl
  unfold handler6
  simp only [DHCPv6.IsRelay, Bool.not_true, Bool.false_eq_true, if_false, hlen, dite_true]
  rw [hget, set_last_eq_dropLast_append _ _ hl]

theorem AddOption_Options (resp : DHCPv6) (o : Opt) :
    (resp.AddOption o).Options = resp.Options ++ [o] := by
  match resp with
  | .message (.mk _ _ _) => rfl
  | .relay (.mk _ _ _ _ _) => rfl

/-- One relay level of `GetInnerMessage` is one turn of the Go loop: `DecapsulateRelay`, then
the same again on what it returned. -/
theorem GetInnerMessage_relay_eq (r : RelayMessage) :
    (DHCPv6.relay r).GetInnerMessage =
      match DecapsulateRelay (.relay r) with
      | .error e => .error e
      | .ok p => p.GetInnerMessage := by
  obtain ⟨t, h, l, p, opts⟩ := r
  simp only [DHCPv6.GetInnerMessage, RelayMessage.GetInnerMessage, DecapsulateRelay,
    RelayMessage.Options, RelayOptions.RelayMessage, Options.GetOne]
  induction opts with
  | nil => rfl
  | cons o rest ih =>
    by_cases hc : o.Code = OptionRelayMsg
    · cases o <;> simp_all [GetInnerMessage.search, List.find?, Opt.Code]
    · have hne : ∀ d, o = Opt.relayMsg d → False := by
        intro d hd
        subst hd
        exact hc rfl
      rw [GetInnerMessage.search, if_neg hc, List.find?_cons_of_neg _ (by simpa using hc)]
      · exact ih
      · exact hne

/-- Claim C1: for every DHCPv6 request that is not relay-encapsulated and every response
object, `handler6` returns no response (nil) and chain-break = true. -/
theorem handler6_direct_request_dropped (req resp : DHCPv6) (h : req.IsRelay = false) :
    handler6 req resp = .ok (none, true) := by
  simp [handler6, h]

theorem handler6_direct_request_dropped_witness :
    (DHCPv6.message exampleRequest).IsRelay = false ∧
      handler6 (.message exampleRequest) exampleReply = .ok (none, true) :=
  ⟨rfl, handler6_direct_request_dropped _ _ rfl⟩

/-- Claim C2: for a relay-encapsulated request with a non-empty link address whose inner
message decapsulates and carries an IA_NA option, `handler6` returns chain-break = false and
the response with exactly one option appended: an IA_NA option with the IaId of the request's
IA_NA option, holding exactly one address option, whose address is the relay link address
with its last byte incremented by one modulo 256 and every other byte unchanged, and whose
preferred and valid lifetimes are both 24 hours. -/
theorem handler6_appends_ia_address (r : RelayMessage) (resp : DHCPv6) (m : Message)
    (ia : OptIANA) (hl : r.LinkAddr ≠ [])
    (hm : (DHCPv6.relay r).GetInnerMessage = .ok m)
    (hia : MessageOptions.OneIANA m.Options = .ok (some ia)) :
    ∃ (addr : net.IP) (resp' : DHCPv6),
      handler6 (.relay r) resp = .ok (some resp', false) ∧
      resp' = resp.AddOption
        (.iana (.mk ia.IaId 0 0 [.iaaddr (.mk addr (24 * Hour) (24 * Hour) [])])) ∧
      resp'.Options = resp.Options ++
        [.iana (.mk ia.IaId 0 0 [.iaaddr (.mk addr (24 * Hour) (24 * Hour) [])])] ∧
      addr.length = r.LinkAddr.length ∧
      (∀ i, i + 1 < r.LinkAddr.length → addr[i]? = r.LinkAddr[i]?) ∧
      addr.getLast? = some ((r.LinkAddr.getLast hl + 1) % 256) ∧
      24 * Hour = (24 * 60 * 60 * 1000000000 : Int) := by
  refine ⟨r.LinkAddr.dropLast ++ [(r.LinkAddr.getLast hl + 1) % 256], _, ?_, rfl,
    AddOption_Options _ _, ?_, ?_, ?_, by decide⟩
  · rw [handler6_relay_eq r resp hl, hm]
    simp only [hia]
  · have : 0 < r.LinkAddr.length := List.length_pos.mpr hl
    simp only [List.length_append, List.length_dropLast, List.length_singleton]
    omega
  · intro i hi
    rw [List.getElem?_append_left (by simp only [List.length_dropLast]; omega)]
    rw [List.dropLast_eq_take, List.getElem?_take_of_lt (by omega)]
  · simp

theorem handler6_appends_ia_address_witness :
    exampleRelayFF.LinkAddr ≠ [] ∧
    (DHCPv6.relay exampleRelayFF).GetInnerMessage = .ok exampleRequest ∧
    MessageOptions.OneIANA exampleRequest.Options = .ok (some exampleIANA) ∧
    ∃ (addr : net.IP) (resp' : DHCPv6),
      handler6 (.relay exampleRelayFF) exampleReply = .ok (some resp', false) ∧
      resp' = exampleReply.AddOption
        (.iana (.mk exampleIANA.IaId 0 0 [.iaaddr (.mk addr (24 * Hour) (24 * Hour) [])])) ∧
      resp'.Options = exampleReply.Options ++
        [.iana (.mk exampleIANA.IaId 0 0 [.iaaddr (.mk addr (24 * Hour) (24 * Hour) [])])] ∧
      addr.length = exampleRelayFF.LinkAddr.length ∧
      (∀ i, i + 1 < exampleRelayFF.LinkAddr.length → addr[i]? = exampleRelayFF.LinkAddr[i]?) ∧
      addr.getLast? = some ((exampleRelayFF.LinkAddr.getLast (by decide) + 1) % 256) ∧
      24 * Hour = (24 * 60 * 60 * 1000000000 : Int) :=
  ⟨by decide, rfl, rfl,
    handler6_appends_ia_address exampleRelayFF exampleReply exampleRequest exampleIANA
      (by decide) rfl rfl⟩

/-- Claim C7, as stated, fails: a relay-encapsulated request that carries no relay-message
option cannot be decapsulated, and `handler6` answers it with no response and
chain-break = true. -/
theorem handler6_undecapsulable_relay_breaks_chain :
    (DHCPv6.relay exampleRelayNoInner).IsRelay = true ∧
      handler6 (.relay exampleRelayNoInner) exampleReply = .ok (none, true) :=
  ⟨rfl, rfl⟩

/-- Claim C7, amended: no response with chain-break = true is what `handler6` returns for a
direct request and for a relay-encapsulated request whose inner message cannot be
decapsulated, and for nothing else; for a relay-encapsulated request with a non-empty link
address whose inner message decapsulates and can be searched for an IA_NA option, `handler6`
returns chain-break = false with the response passed in, unmodified when no IA_NA option is
requested and with one option appended otherwise. -/
theorem handler6_chain_contract (r : RelayMessage) (resp : DHCPv6) (hl : r.LinkAddr ≠ []) :
    (∀ direct : DHCPv6, direct.IsRelay = false → handler6 direct resp = .ok (none, true)) ∧
    (∀ e, (DHCPv6.relay r).GetInnerMessage = .error e →
      handler6 (.relay r) resp = .ok (none, true)) ∧
    (∀ m o, (DHCPv6.relay r).GetInnerMessage = .ok m →
      MessageOptions.OneIANA m.Options = .ok o →
      ∃ resp', handler6 (.relay r) resp = .ok (some resp', false) ∧
        (o = none → resp' = resp) ∧
        (∀ ia, o = some ia → ∃ opt, resp' = resp.AddOption opt ∧
          resp'.Options = resp.Options ++ [opt])) ∧
    (∀ req : DHCPv6, handler6 req resp = .ok (none, true) →
      req.IsRelay = false ∨ ∃ e, req.GetInnerMessage = .error e) := by
  refine ⟨fun d hd => by simp [handler6, hd], ?_, ?_, ?_⟩
  · intro e he
    rw [handler6_relay_eq r resp hl, he]
  · intro m o hm ho
    rw [handler6_relay_eq r resp hl, hm]
    simp only [ho]
    cases o with
    | none => exact ⟨resp, rfl, fun _ => rfl, fun ia hia => by cases hia⟩
    | some ia =>
      refine ⟨_, rfl, ?_, ?_⟩
      · intro h
        cases h
      · intro ia' _
        exact ⟨_, rfl, AddOption_Options _ _⟩
  · intro req h
    cases req with
    | message m => exact Or.inl rfl
    | relay q =>
      right
      by_cases hq : q.LinkAddr = []
      · exfalso
        have hpanic : handler6 (.relay q) resp = .error "index out of range [-1]" := by
          unfold handler6
          simp [DHCPv6.IsRelay, hq]
        rw [hpanic] at h
        cases h
      · rw [handler6_relay_eq q resp hq] at h
        cases hg : (DHCPv6.relay q).GetInnerMessage with
        | error e => exact ⟨e, rfl⟩
        | ok m =>
          rw [hg] at h
          simp only at h
          cases ho : MessageOptions.OneIANA m.Options with
          | error p => rw [ho] at h; simp at h
          | ok o =>
            rw [ho] at h
            cases o <;> simp at h

theorem handler6_chain_contract_witness :
    exampleRelayFF.LinkAddr ≠ [] ∧
    (DHCPv6.relay exampleRelayFF).GetInnerMessage = .ok exampleRequest ∧
    MessageOptions.OneIANA exampleRequest.Options = .ok (some exampleIANA) ∧
    ∃ resp', handler6 (.relay exampleRelayFF) exampleReply = .ok (some resp', false) ∧
      ∃ opt, resp' = exampleReply.AddOption opt ∧
        resp'.Options = exampleReply.Options ++ [opt] :=
  ⟨by decide, rfl, rfl,
    match (handler6_chain_contract exampleRelayFF exampleReply (by decide)).2.2.1
      exampleRequest (some exampleIANA) rfl rfl with
    | ⟨resp', h, _, hs⟩ => ⟨resp', h, hs exampleIANA rfl⟩⟩

/-- Claim C8: for every relay-encapsulated request whose inner message decapsulates but
carries no IA_NA option, `handler6` returns the passed-in response unmodified, no option
appended, with chain-break = false. A relay message as decoded from a packet has a link
address of 16 bytes; the proof needs only that it is not empty. -/
theorem handler6_no_ia_passes_response (r : RelayMessage) (resp : DHCPv6) (m : Message)
    (hl : r.LinkAddr ≠ []) (hm : (DHCPv6.relay r).GetInnerMessage = .ok m)
    (hia : MessageOptions.OneIANA m.Options = .ok none) :
    handler6 (.relay r) resp = .ok (some resp, false) := by
  rw [handler6_relay_eq r resp hl, hm]
  simp only [hia]

theorem handler6_no_ia_passes_response_witness :
    exampleRelayNoIA.LinkAddr ≠ [] ∧
    (DHCPv6.relay exampleRelayNoIA).GetInnerMessage = .ok exampleRequestNoIA ∧
    MessageOptions.OneIANA exampleRequestNoIA.Options = .ok none ∧
    handler6 (.relay exampleRelayNoIA) exampleReply = .ok (some exampleReply, false) :=
  ⟨by decide, rfl, rfl,
    handler6_no_ia_passes_response exampleRelayNoIA exampleReply exampleRequestNoIA
      (by decide) rfl rfl⟩

/-! ## Properties of `createIpamIP` -/

/-- The record built does not depend on the client. -/
theorem ipamIP_logged {σ : Type} (k : K8sClient σ) (ip : ipamv1alpha1.IPAddr) (ipaddr : net.IP)
    (mac : net.HardwareAddr) : k.logged.ipamIP ip ipaddr mac = k.ipamIP ip ipaddr mac := rfl

/-- The body of `createIpamIP` once the address has been parsed. -/
theorem createIpamIP_parsed {σ : Type} (k : K8sClient σ)
    (parser : String → Except GoError ipamv1alpha1.IPAddr) (ipaddr : net.IP)
    (mac : net.HardwareAddr) (ip : ipamv1alpha1.IPAddr) (s : σ)
    (hp : parser (net.IP.String ipaddr) = .ok ip) :
    k.createIpamIP parser ipaddr mac s =
      match k.Client.Get (client.ObjectKeyFromObject (k.ipamIP ip ipaddr mac))
          (k.ipamIP ip ipaddr mac) s with
      | ((err, existingIpamIP), s) =>
        if err.isSome ∧ !apierrors.IsNotFound err then
          (err.map (fun e => .wrapf e "Failed to get IP %s in namespace %s"
            [(k.ipamIP ip ipaddr mac).ObjectMeta.Name,
              (k.ipamIP ip ipaddr mac).ObjectMeta.Namespace]), s)
        else
          let create (s : σ) : Option GoError × σ :=
            match k.Client.Create (k.ipamIP ip ipaddr mac) s with
            | (some err, s) =>
              (some (.wrapf err "Failed to create IP %s in namespace %s"
                [(k.ipamIP ip ipaddr mac).ObjectMeta.Name,
                  (k.ipamIP ip ipaddr mac).ObjectMeta.Namespace]), s)
            | (none, s) => (none, s)
          if apierrors.IsNotFound err then
            create s
          else if !reflect.DeepEqual (k.ipamIP ip ipaddr mac).Spec existingIpamIP.Spec then
            match k.Client.Delete existingIpamIP s with
            | (some err, s) =>
              (some (.wrapf err "Failed to delete IP %s in namespace %s"
                [existingIpamIP.ObjectMeta.Name, existingIpamIP.ObjectMeta.Namespace]), s)
            | (none, s) => create s
          else
            (none, s) := by
  unfold K8sClient.createIpamIP
  rw [hp]

/-- A failed read, other than not-found, ends the call. -/
theorem createIpamIP_get_failed {σ : Type} (k : K8sClient σ)
    (parser : String → Except GoError ipamv1alpha1.IPAddr) (ipaddr : net.IP)
    (mac : net.HardwareAddr) (ip : ipamv1alpha1.IPAddr) (s s1 : σ) (e : GoError)
    (x : ipamv1alpha1.IP)
    (hp : parser (net.IP.String ipaddr) = .ok ip)
    (hg : k.Client.Get (client.ObjectKeyFromObject (k.ipamIP ip ipaddr mac))
      (k.ipamIP ip ipaddr mac) s = ((some e, x), s1))
    (hnf : apierrors.IsNotFound (some e) = false) :
    k.createIpamIP parser ipaddr mac s =
      (some (.wrapf e "Failed to get IP %s in namespace %s"
        [(k.ipamIP ip ipaddr mac).ObjectMeta.Name,
          (k.ipamIP ip ipaddr mac).ObjectMeta.Namespace]), s1) := by
  rw [createIpamIP_parsed k parser ipaddr mac ip s hp, hg]
  simp [hnf]

/-- After a read that reports not-found, the call is the create. -/
theorem createIpamIP_not_found {σ : Type} (k : K8sClient σ)
    (parser : String → Except GoError ipamv1alpha1.IPAddr) (ipaddr : net.IP)
    (mac : net.HardwareAddr) (ip : ipamv1alpha1.IPAddr) (s s1 : σ) (err : Option GoError)
    (x : ipamv1alpha1.IP)
    (hp : parser (net.IP.String ipaddr) = .ok ip)
    (hg : k.Client.Get (client.ObjectKeyFromObject (k.ipamIP ip ipaddr mac))
      (k.ipamIP ip ipaddr mac) s = ((err, x), s1))
    (hnf : apierrors.IsNotFound err = true) :
    k.createIpamIP parser ipaddr mac s =
      match k.Client.Create (k.ipamIP ip ipaddr mac) s1 with
      | (some err, s) =>
        (some (.wrapf err "Failed to create IP %s in namespace %s"
          [(k.ipamIP ip ipaddr mac).ObjectMeta.Name,
            (k.ipamIP ip ipaddr mac).ObjectMeta.Namespace]), s)
      | (none, s) => (none, s) := by
  rw [createIpamIP_parsed k parser ipaddr mac ip s hp, hg]
  simp [hnf]

/-- After a read that finds a record with the desired spec, the call is over. -/
theorem createIpamIP_found_equal {σ : Type} (k : K8sClient σ)
    (parser : String → Except GoError ipamv1alpha1.IPAddr) (ipaddr : net.IP)
    (mac : net.HardwareAddr) (ip : ipamv1alpha1.IPAddr) (s s1 : σ)
    (x : ipamv1alpha1.IP)
    (hp : parser (net.IP.String ipaddr) = .ok ip)
    (hg : k.Client.Get (client.ObjectKeyFromObject (k.ipamIP ip ipaddr mac))
      (k.ipamIP ip ipaddr mac) s = ((none, x), s1))
    (heq : (k.ipamIP ip ipaddr mac).Spec = x.Spec) :
    k.createIpamIP parser ipaddr mac s = (none, s1) := by
  rw [createIpamIP_parsed k parser ipaddr mac ip s hp, hg]
  simp [apierrors.IsNotFound, reflect.DeepEqual, heq]

/-- After a read that finds a record with another spec, the call is the delete and, if that
succeeds, the create. -/
theorem createIpamIP_found_differs {σ : Type} (k : K8sClient σ)
    (parser : String → Except GoError ipamv1alpha1.IPAddr) (ipaddr : net.IP)
    (mac : net.HardwareAddr) (ip : ipamv1alpha1.IPAddr) (s s1 : σ)
    (x : ipamv1alpha1.IP)
    (hp : parser (net.IP.String ipaddr) = .ok ip)
    (hg : k.Client.Get (client.ObjectKeyFromObject (k.ipamIP ip ipaddr mac))
      (k.ipamIP ip ipaddr mac) s = ((none, x), s1))
    (hne : (k.ipamIP ip ipaddr mac).Spec ≠ x.Spec) :
    k.createIpamIP parser ipaddr mac s =
      match k.Client.Delete x s1 with
      | (some err, s) =>
        (some (.wrapf err "Failed to delete IP %s in namespace %s"
          [x.ObjectMeta.Name, x.ObjectMeta.Namespace]), s)
      | (none, s) =>
        match k.Client.Create (k.ipamIP ip ipaddr mac) s with
        | (some err, s) =>
          (some (.wrapf err "Failed to create IP %s in namespace %s"
            [(k.ipamIP ip ipaddr mac).ObjectMeta.Name,
              (k.ipamIP ip ipaddr mac).ObjectMeta.Namespace]), s)
        | (none, s) => (none, s) := by
  rw [createIpamIP_parsed k parser ipaddr mac ip s hp, hg]
  simp [apierrors.IsNotFound, reflect.DeepEqual, hne]

/-- A failed delete ends the call. -/
theorem createIpamIP_delete_failed {σ : Type} (k : K8sClient σ)
    (parser : String → Except GoError ipamv1alpha1.IPAddr) (ipaddr : net.IP)
    (mac : net.HardwareAddr) (ip : ipamv1alpha1.IPAddr) (s s1 s2 : σ)
    (x : ipamv1alpha1.IP) (e : GoError)
    (hp : parser (net.IP.String ipaddr) = .ok ip)
    (hg : k.Client.Get (client.ObjectKeyFromObject (k.ipamIP ip ipaddr mac))
      (k.ipamIP ip ipaddr mac) s = ((none, x), s1))
    (hne : (k.ipamIP ip ipaddr mac).Spec ≠ x.Spec)
    (hd : k.Client.Delete x s1 = (some e, s2)) :
    k.createIpamIP parser ipaddr mac s =
      (some (.wrapf e "Failed to delete IP %s in namespace %s"
        [x.ObjectMeta.Name, x.ObjectMeta.Namespace]), s2) := by
  rw [createIpamIP_found_differs k parser ipaddr mac ip s s1 x hp hg hne, hd]

/-- After a successful delete, the call is the create. -/
theorem createIpamIP_deleted {σ : Type} (k : K8sClient σ)
    (parser : String → Except GoError ipamv1alpha1.IPAddr) (ipaddr : net.IP)
    (mac : net.HardwareAddr) (ip : ipamv1alpha1.IPAddr) (s s1 s2 : σ)
    (x : ipamv1alpha1.IP)
    (hp : parser (net.IP.String ipaddr) = .ok ip)
    (hg : k.Client.Get (client.ObjectKeyFromObject (k.ipamIP ip ipaddr mac))
      (k.ipamIP ip ipaddr mac) s = ((none, x), s1))
    (hne : (k.ipamIP ip ipaddr mac).Spec ≠ x.Spec)
    (hd : k.Client.Delete x s1 = (none, s2)) :
    k.createIpamIP parser ipaddr mac s =
      match k.Client.Create (k.ipamIP ip ipaddr mac) s2 with
      | (some err, s) =>
        (some (.wrapf err "Failed to create IP %s in namespace %s"
          [(k.ipamIP ip ipaddr mac).ObjectMeta.Name,
            (k.ipamIP ip ipaddr mac).ObjectMeta.Namespace]), s)
      | (none, s) => (none, s) := by
  rw [createIpamIP_found_differs k parser ipaddr mac ip s s1 x hp hg hne, hd]

/-! ### The in-memory store -/

theorem Store.lookup_key (s : Store) (key : client.ObjectKey) (o : ipamv1alpha1.IP)
    (h : Store.lookup s key = some o) : client.ObjectKeyFromObject o = key := by
  have := List.find?_some h
  simpa using this

theorem Store.lookup_mem (s : Store) (key : client.ObjectKey) (o : ipamv1alpha1.IP)
    (h : Store.lookup s key = some o) : o ∈ s :=
  List.mem_of_find?_eq_some h

theorem Store.lookup_remove (s : Store) (key : client.ObjectKey) :
    Store.lookup (Store.remove s key) key = none := by
  simp [Store.lookup, Store.remove, List.find?_eq_none]

theorem Store.lookup_append_new (s : Store) (o : ipamv1alpha1.IP)
    (h : Store.lookup s (client.ObjectKeyFromObject o) = none) :
    Store.lookup (s ++ [o]) (client.ObjectKeyFromObject o) = some o := by
  unfold Store.lookup at h ⊢
  rw [List.find?_append, h]
  simp

theorem Store.under_of_lookup_none (s : Store) (key : client.ObjectKey)
    (h : Store.lookup s key = none) : Store.under s key = [] := by
  unfold Store.lookup at h
  rw [List.find?_eq_none] at h
  unfold Store.under
  rw [List.filter_eq_nil_iff]
  exact h

theorem Store.under_append (s : Store) (o : ipamv1alpha1.IP) :
    Store.under (s ++ [o]) (client.ObjectKeyFromObject o) =
      Store.under s (client.ObjectKeyFromObject o) ++ [o] := by
  simp [Store.under, List.filter_append]

theorem Store.under_of_lookup (s : Store) (key : client.ObjectKey) (o : ipamv1alpha1.IP)
    (hwf : Store.WF s) (h : Store.lookup s key = some o) : Store.under s key = [o] := by
  induction s with
  | nil => simp [Store.lookup] at h
  | cons a t ih =>
    unfold Store.WF at hwf
    rw [List.map_cons, List.nodup_cons] at hwf
    by_cases ha : client.ObjectKeyFromObject a = key
    · have hao : a = o := by
        simpa [Store.lookup, List.find?, ha] using h
      have ht : Store.under t key = [] := by
        unfold Store.under
        rw [List.filter_eq_nil_iff]
        intro b hb hk
        apply hwf.1
        rw [ha]
        exact List.mem_map.mpr ⟨b, hb, by simpa using hk⟩
      unfold Store.under at ht ⊢
      rw [List.filter_cons_of_pos (by simpa using ha), ht, hao]
    · have ht : Store.lookup t key = some o := by
        simpa [Store.lookup, List.find?, ha] using h
      unfold Store.under
      rw [List.filter_cons_of_neg (by simpa using ha)]
      exact ih hwf.2 ht

theorem Store.WF_remove (s : Store) (key : client.ObjectKey) (hwf : Store.WF s) :
    Store.WF (Store.remove s key) :=
  List.Nodup.sublist (List.Sublist.map _ (List.filter_sublist s)) hwf

theorem Store.WF_append_new (s : Store) (o : ipamv1alpha1.IP) (hwf : Store.WF s)
    (h : Store.lookup s (client.ObjectKeyFromObject o) = none) : Store.WF (s ++ [o]) := by
  unfold Store.lookup at h
  rw [List.find?_eq_none] at h
  unfold Store.WF at hwf ⊢
  rw [List.map_append, List.nodup_append]
  refine ⟨hwf, by simp, ?_⟩
  intro a ha hb
  rw [List.map_singleton, List.mem_singleton] at hb
  obtain ⟨b, hbs, hbk⟩ := List.mem_map.mp ha
  exact h b hbs (by simpa [hb] using hbk)

theorem Store.keys_markDeleted (s : Store) (key : client.ObjectKey) :
    (Store.markDeleted s key).map client.ObjectKeyFromObject =
      s.map client.ObjectKeyFromObject := by
  induction s with
  | nil => rfl
  | cons a t ih =>
    unfold Store.markDeleted at ih ⊢
    rw [List.map_cons, List.map_cons, List.map_cons, ih]
    by_cases ha : client.ObjectKeyFromObject a = key
    · rw [if_pos ha]
      rfl
    · rw [if_neg ha]

theorem Store.WF_markDeleted (s : Store) (key : client.ObjectKey) (hwf : Store.WF s) :
    Store.WF (Store.markDeleted s key) := by
  unfold Store.WF
  rw [Store.keys_markDeleted]
  exact hwf

theorem Store.lookup_markDeleted (s : Store) (key : client.ObjectKey) (o : ipamv1alpha1.IP)
    (h : Store.lookup s key = some o) :
    Store.lookup (Store.markDeleted s key) key = some o.markDeleted := by
  induction s with
  | nil => simp [Store.lookup] at h
  | cons a t ih =>
    by_cases ha : client.ObjectKeyFromObject a = key
    · have hao : a = o := by
        simpa [Store.lookup, List.find?, ha] using h
      subst hao
      have hk : client.ObjectKeyFromObject a.markDeleted = key := ha
      simp [Store.lookup, Store.markDeleted, ha, hk]
    · have ht : Store.lookup t key = some o := by
        simpa [Store.lookup, List.find?, ha] using h
      have := ih ht
      unfold Store.lookup Store.markDeleted at this ⊢
      rw [List.map_cons, if_neg ha, List.find?_cons_of_neg _ (by simpa using ha)]
      exact this

/-- The in-memory store keeps its invariant under every operation of the client. -/
theorem memClient_preserves_WF (s : Store) (hwf : Store.WF s) (key : client.ObjectKey)
    (obj : ipamv1alpha1.IP) :
    Store.WF (memClient.Get key obj s).2 ∧ Store.WF (memClient.Delete obj s).2 ∧
      Store.WF (memClient.Create obj s).2 := by
  refine ⟨?_, ?_, ?_⟩
  · unfold memClient
    simp only
    cases Store.lookup s key <;> exact hwf
  · unfold memClient
    simp only
    cases Store.lookup s (client.ObjectKeyFromObject obj) with
    | none => exact hwf
    | some o =>
      by_cases hfin : o.ObjectMeta.Finalizers = []
      · simp only [hfin, if_true]
        exact Store.WF_remove s _ hwf
      · simp only [hfin, if_false]
        exact Store.WF_markDeleted s _ hwf
  · unfold memClient
    simp only
    cases h : Store.lookup s (client.ObjectKeyFromObject obj) with
    | none => exact Store.WF_append_new s obj hwf h
    | some _ => exact hwf

/-! ### `createIpamIP` on a client that records its calls -/

theorem logged_Get {σ : Type} (k : K8sClient σ) (key : client.ObjectKey)
    (into x : ipamv1alpha1.IP) (err : Option GoError) (s s1 : σ) (l : List (Call × σ))
    (h : k.Client.Get key into s = ((err, x), s1)) :
    k.logged.Client.Get key into (s, l) = ((err, x), (s1, l ++ [(Call.get key, s1)])) := by
  show ((k.Client.Get key into s).1, ((k.Client.Get key into s).2,
    l ++ [(Call.get key, (k.Client.Get key into s).2)])) = _
  rw [h]

theorem logged_Delete {σ : Type} (k : K8sClient σ) (obj : ipamv1alpha1.IP)
    (err : Option GoError) (s s1 : σ) (l : List (Call × σ))
    (h : k.Client.Delete obj s = (err, s1)) :
    k.logged.Client.Delete obj (s, l) = (err, (s1, l ++ [(Call.delete obj, s1)])) := by
  show ((k.Client.Delete obj s).1, ((k.Client.Delete obj s).2,
    l ++ [(Call.delete obj, (k.Client.Delete obj s).2)])) = _
  rw [h]

theorem logged_Create {σ : Type} (k : K8sClient σ) (obj : ipamv1alpha1.IP)
    (err : Option GoError) (s s1 : σ) (l : List (Call × σ))
    (h : k.Client.Create obj s = (err, s1)) :
    k.logged.Client.Create obj (s, l) = (err, (s1, l ++ [(Call.create obj, s1)])) := by
  show ((k.Client.Create obj s).1, ((k.Client.Create obj s).2,
    l ++ [(Call.create obj, (k.Client.Create obj s).2)])) = _
  rw [h]

/-- The read reports not-found and the create succeeds: two calls. -/
theorem createIpamIP_logged_created {σ : Type} (k : K8sClient σ)
    (parser : String → Except GoError ipamv1alpha1.IPAddr) (ipaddr : net.IP)
    (mac : net.HardwareAddr) (ip : ipamv1alpha1.IPAddr) (s s1 s2 : σ) (err : Option GoError)
    (x : ipamv1alpha1.IP)
    (hp : parser (net.IP.String ipaddr) = .ok ip)
    (hg : k.Client.Get (client.ObjectKeyFromObject (k.ipamIP ip ipaddr mac))
      (k.ipamIP ip ipaddr mac) s = ((err, x), s1))
    (hnf : apierrors.IsNotFound err = true)
    (hc : k.Client.Create (k.ipamIP ip ipaddr mac) s1 = (none, s2)) :
    k.logged.createIpamIP parser ipaddr mac (s, []) =
      (none, (s2, [(Call.get (client.ObjectKeyFromObject (k.ipamIP ip ipaddr mac)), s1),
        (Call.create (k.ipamIP ip ipaddr mac), s2)])) := by
  rw [createIpamIP_not_found k.logged parser ipaddr mac ip _ _ err x hp
    (logged_Get k _ _ _ _ _ _ [] hg) hnf]
  rw [ipamIP_logged, logged_Create k _ _ _ _ _ hc]
  rfl

/-- The read reports not-found and the create fails: two calls, and the error of the create
comes back wrapped. -/
theorem createIpamIP_logged_create_failed {σ : Type} (k : K8sClient σ)
    (parser : String → Except GoError ipamv1alpha1.IPAddr) (ipaddr : net.IP)
    (mac : net.HardwareAddr) (ip : ipamv1alpha1.IPAddr) (s s1 s2 : σ) (err : Option GoError)
    (x : ipamv1alpha1.IP) (e : GoError)
    (hp : parser (net.IP.String ipaddr) = .ok ip)
    (hg : k.Client.Get (client.ObjectKeyFromObject (k.ipamIP ip ipaddr mac))
      (k.ipamIP ip ipaddr mac) s = ((err, x), s1))
    (hnf : apierrors.IsNotFound err = true)
    (hc : k.Client.Create (k.ipamIP ip ipaddr mac) s1 = (some e, s2)) :
    k.logged.createIpamIP parser ipaddr mac (s, []) =
      (some (.wrapf e "Failed to create IP %s in namespace %s"
          [(k.ipamIP ip ipaddr mac).ObjectMeta.Name, (k.ipamIP ip ipaddr mac).ObjectMeta.Namespace]),
        (s2, [(Call.get (client.ObjectKeyFromObject (k.ipamIP ip ipaddr mac)), s1),
          (Call.create (k.ipamIP ip ipaddr mac), s2)])) := by
  rw [createIpamIP_not_found k.logged parser ipaddr mac ip _ _ err x hp
    (logged_Get k _ _ _ _ _ _ [] hg) hnf]
  rw [ipamIP_logged, logged_Create k _ _ _ _ _ hc]
  rfl

/-- The read finds a record with the desired spec: one call. -/
theorem createIpamIP_logged_unchanged {σ : Type} (k : K8sClient σ)
    (parser : String → Except GoError ipamv1alpha1.IPAddr) (ipaddr : net.IP)
    (mac : net.HardwareAddr) (ip : ipamv1alpha1.IPAddr) (s s1 : σ)
    (x : ipamv1alpha1.IP)
    (hp : parser (net.IP.String ipaddr) = .ok ip)
    (hg : k.Client.Get (client.ObjectKeyFromObject (k.ipamIP ip ipaddr mac))
      (k.ipamIP ip ipaddr mac) s = ((none, x), s1))
    (heq : (k.ipamIP ip ipaddr mac).Spec = x.Spec) :
    k.logged.createIpamIP parser ipaddr mac (s, []) =
      (none, (s1, [(Call.get (client.ObjectKeyFromObject (k.ipamIP ip ipaddr mac)), s1)])) :=
  createIpamIP_found_equal k.logged parser ipaddr mac ip _ _ x hp
    (logged_Get k _ _ _ _ _ _ [] hg) heq

/-- The read finds a record with another spec, the delete and the create succeed: three
calls. -/
theorem createIpamIP_logged_replaced {σ : Type} (k : K8sClient σ)
    (parser : String → Except GoError ipamv1alpha1.IPAddr) (ipaddr : net.IP)
    (mac : net.HardwareAddr) (ip : ipamv1alpha1.IPAddr) (s s1 s2 s3 : σ)
    (x : ipamv1alpha1.IP)
    (hp : parser (net.IP.String ipaddr) = .ok ip)
    (hg : k.Client.Get (client.ObjectKeyFromObject (k.ipamIP ip ipaddr mac))
      (k.ipamIP ip ipaddr mac) s = ((none, x), s1))
    (hne : (k.ipamIP ip ipaddr mac).Spec ≠ x.Spec)
    (hd : k.Client.Delete x s1 = (none, s2))
    (hc : k.Client.Create (k.ipamIP ip ipaddr mac) s2 = (none, s3)) :
    k.logged.createIpamIP parser ipaddr mac (s, []) =
      (none, (s3, [(Call.get (client.ObjectKeyFromObject (k.ipamIP ip ipaddr mac)), s1),
        (Call.delete x, s2), (Call.create (k.ipamIP ip ipaddr mac), s3)])) := by
  rw [createIpamIP_deleted k.logged parser ipaddr mac ip _ _ _ x hp
    (logged_Get k _ _ _ _ _ _ [] hg) hne (logged_Delete k _ _ _ _ _ hd)]
  rw [ipamIP_logged, logged_Create k _ _ _ _ _ hc]
  rfl

/-- The read finds a record with another spec, the delete succeeds and the create fails:
three calls, and the error of the create comes back wrapped. -/
theorem createIpamIP_logged_recreate_failed {σ : Type} (k : K8sClient σ)
    (parser : String → Except GoError ipamv1alpha1.IPAddr) (ipaddr : net.IP)
    (mac : net.HardwareAddr) (ip : ipamv1alpha1.IPAddr) (s s1 s2 s3 : σ)
    (x : ipamv1alpha1.IP) (e : GoError)
    (hp : parser (net.IP.String ipaddr) = .ok ip)
    (hg : k.Client.Get (client.ObjectKeyFromObject (k.ipamIP ip ipaddr mac))
      (k.ipamIP ip ipaddr mac) s = ((none, x), s1))
    (hne : (k.ipamIP ip ipaddr mac).Spec ≠ x.Spec)
    (hd : k.Client.Delete x s1 = (none, s2))
    (hc : k.Client.Create (k.ipamIP ip ipaddr mac) s2 = (some e, s3)) :
    k.logged.createIpamIP parser ipaddr mac (s, []) =
      (some (.wrapf e "Failed to create IP %s in namespace %s"
          [(k.ipamIP ip ipaddr mac).ObjectMeta.Name, (k.ipamIP ip ipaddr mac).ObjectMeta.Namespace]),
        (s3, [(Call.get (client.ObjectKeyFromObject (k.ipamIP ip ipaddr mac)), s1),
          (Call.delete x, s2), (Call.create (k.ipamIP ip ipaddr mac), s3)])) := by
  rw [createIpamIP_deleted k.logged parser ipaddr mac ip _ _ _ x hp
    (logged_Get k _ _ _ _ _ _ [] hg) hne (logged_Delete k _ _ _ _ _ hd)]
  rw [ipamIP_logged, logged_Create k _ _ _ _ _ hc]
  rfl

/-! ### `createIpamIP` on the in-memory store -/

theorem memClient_Get_none (s : Store) (key : client.ObjectKey) (into : ipamv1alpha1.IP)
    (h : Store.lookup s key = none) :
    memClient.Get key into s = ((some (.status .NotFound "not found"), into), s) := by
  simp only [memClient, h]

theorem memClient_Get_some (s : Store) (key : client.ObjectKey) (into o : ipamv1alpha1.IP)
    (h : Store.lookup s key = some o) : memClient.Get key into s = ((none, o), s) := by
  simp only [memClient, h]

theorem memClient_Delete_removed (s : Store) (obj o : ipamv1alpha1.IP)
    (h : Store.lookup s (client.ObjectKeyFromObject obj) = some o)
    (hfin : o.ObjectMeta.Finalizers = []) :
    memClient.Delete obj s = (none, Store.remove s (client.ObjectKeyFromObject obj)) := by
  simp only [memClient, h, hfin, if_true]

theorem memClient_Delete_held (s : Store) (obj o : ipamv1alpha1.IP)
    (h : Store.lookup s (client.ObjectKeyFromObject obj) = some o)
    (hfin : o.ObjectMeta.Finalizers ≠ []) :
    memClient.Delete obj s = (none, Store.markDeleted s (client.ObjectKeyFromObject obj)) := by
  simp only [memClient, h, hfin, if_false]

theorem memClient_Create_some (s : Store) (obj o : ipamv1alpha1.IP)
    (h : Store.lookup s (client.ObjectKeyFromObject obj) = some o) :
    memClient.Create obj s = (some (.status .AlreadyExists "already exists"), s) := by
  simp only [memClient, h]

theorem memClient_Create_none (s : Store) (obj : ipamv1alpha1.IP)
    (h : Store.lookup s (client.ObjectKeyFromObject obj) = none) :
    memClient.Create obj s = (none, s ++ [obj]) := by
  simp only [memClient, h]

/-- No record under the key: the record is created. -/
theorem createIpamIP_mem_absent (ns subnet : String)
    (parser : String → Except GoError ipamv1alpha1.IPAddr) (ipaddr : net.IP)
    (mac : net.HardwareAddr) (ip : ipamv1alpha1.IPAddr) (s : Store)
    (hp : parser (net.IP.String ipaddr) = .ok ip)
    (hl : Store.lookup s (client.ObjectKeyFromObject ((memK8s ns subnet).ipamIP ip ipaddr mac))
      = none) :
    (memK8s ns subnet).logged.createIpamIP parser ipaddr mac (s, []) =
      (none, (s ++ [(memK8s ns subnet).ipamIP ip ipaddr mac],
        [(Call.get (client.ObjectKeyFromObject ((memK8s ns subnet).ipamIP ip ipaddr mac)), s),
         (Call.create ((memK8s ns subnet).ipamIP ip ipaddr mac),
           s ++ [(memK8s ns subnet).ipamIP ip ipaddr mac])])) :=
  createIpamIP_logged_created (memK8s ns subnet) parser ipaddr mac ip s s _ _ _ hp
    (memClient_Get_none s _ _ hl) rfl (memClient_Create_none s _ hl)

/-- A record with the desired spec under the key: nothing is written. -/
theorem createIpamIP_mem_unchanged (ns subnet : String)
    (parser : String → Except GoError ipamv1alpha1.IPAddr) (ipaddr : net.IP)
    (mac : net.HardwareAddr) (ip : ipamv1alpha1.IPAddr) (s : Store) (x : ipamv1alpha1.IP)
    (hp : parser (net.IP.String ipaddr) = .ok ip)
    (hl : Store.lookup s (client.ObjectKeyFromObject ((memK8s ns subnet).ipamIP ip ipaddr mac))
      = some x)
    (heq : ((memK8s ns subnet).ipamIP ip ipaddr mac).Spec = x.Spec) :
    (memK8s ns subnet).logged.createIpamIP parser ipaddr mac (s, []) =
      (none, (s,
        [(Call.get (client.ObjectKeyFromObject ((memK8s ns subnet).ipamIP ip ipaddr mac)), s)])) :=
  createIpamIP_logged_unchanged (memK8s ns subnet) parser ipaddr mac ip s s x hp
    (memClient_Get_some s _ _ x hl) heq

/-- A record with another spec and no finalizer under the key: it is deleted, then the
record is created. -/
theorem createIpamIP_mem_replaced (ns subnet : String)
    (parser : String → Except GoError ipamv1alpha1.IPAddr) (ipaddr : net.IP)
    (mac : net.HardwareAddr) (ip : ipamv1alpha1.IPAddr) (s : Store) (x : ipamv1alpha1.IP)
    (hp : parser (net.IP.String ipaddr) = .ok ip)
    (hl : Store.lookup s (client.ObjectKeyFromObject ((memK8s ns subnet).ipamIP ip ipaddr mac))
      = some x)
    (hne : ((memK8s ns subnet).ipamIP ip ipaddr mac).Spec ≠ x.Spec)
    (hfin : x.ObjectMeta.Finalizers = []) :
    (memK8s ns subnet).logged.createIpamIP parser ipaddr mac (s, []) =
      (none,
        (Store.remove s (client.ObjectKeyFromObject ((memK8s ns subnet).ipamIP ip ipaddr mac))
          ++ [(memK8s ns subnet).ipamIP ip ipaddr mac],
        [(Call.get (client.ObjectKeyFromObject ((memK8s ns subnet).ipamIP ip ipaddr mac)), s),
         (Call.delete x,
           Store.remove s (client.ObjectKeyFromObject ((memK8s ns subnet).ipamIP ip ipaddr mac))),
         (Call.create ((memK8s ns subnet).ipamIP ip ipaddr mac),
           Store.remove s (client.ObjectKeyFromObject ((memK8s ns subnet).ipamIP ip ipaddr mac))
            ++ [(memK8s ns subnet).ipamIP ip ipaddr mac])])) := by
  have hk := Store.lookup_key s _ x hl
  refine createIpamIP_logged_replaced (memK8s ns subnet) parser ipaddr mac ip s s _ _ x hp
    (memClient_Get_some s _ _ x hl) hne ?_ ?_
  · have := memClient_Delete_removed s x x (by rw [hk]; exact hl) hfin
    rw [hk] at this
    exact this
  · exact memClient_Create_none _ _ (Store.lookup_remove s _)

/-- A record with another spec and a finalizer under the key: the delete returns nil and the
record stays, so the create fails with already-exists and the call returns that error. -/
theorem createIpamIP_mem_held (ns subnet : String)
    (parser : String → Except GoError ipamv1alpha1.IPAddr) (ipaddr : net.IP)
    (mac : net.HardwareAddr) (ip : ipamv1alpha1.IPAddr) (s : Store) (x : ipamv1alpha1.IP)
    (hp : parser (net.IP.String ipaddr) = .ok ip)
    (hl : Store.lookup s (client.ObjectKeyFromObject ((memK8s ns subnet).ipamIP ip ipaddr mac))
      = some x)
    (hne : ((memK8s ns subnet).ipamIP ip ipaddr mac).Spec ≠ x.Spec)
    (hfin : x.ObjectMeta.Finalizers ≠ []) :
    (memK8s ns subnet).logged.createIpamIP parser ipaddr mac (s, []) =
      (some (.wrapf (.status .AlreadyExists "already exists")
          "Failed to create IP %s in namespace %s"
          [((memK8s ns subnet).ipamIP ip ipaddr mac).ObjectMeta.Name,
            ((memK8s ns subnet).ipamIP ip ipaddr mac).ObjectMeta.Namespace]),
        (Store.markDeleted s
            (client.ObjectKeyFromObject ((memK8s ns subnet).ipamIP ip ipaddr mac)),
        [(Call.get (client.ObjectKeyFromObject ((memK8s ns subnet).ipamIP ip ipaddr mac)), s),
         (Call.delete x, Store.markDeleted s
            (client.ObjectKeyFromObject ((memK8s ns subnet).ipamIP ip ipaddr mac))),
         (Call.create ((memK8s ns subnet).ipamIP ip ipaddr mac), Store.markDeleted s
            (client.ObjectKeyFromObject ((memK8s ns subnet).ipamIP ip ipaddr mac)))])) := by
  have hk := Store.lookup_key s _ x hl
  refine createIpamIP_logged_recreate_failed (memK8s ns subnet) parser ipaddr mac ip s s _ _ x
    _ hp (memClient_Get_some s _ _ x hl) hne ?_ ?_
  · have := memClient_Delete_held s x x (by rw [hk]; exact hl) hfin
    rw [hk] at this
    exact this
  · exact memClient_Create_some _ _ _ (Store.lookup_markDeleted s _ x hl)

/-- Recording the calls changes neither the error returned nor the store. -/
theorem createIpamIP_logged_erase {σ : Type} (k : K8sClient σ)
    (parser : String → Except GoError ipamv1alpha1.IPAddr) (ipaddr : net.IP)
    (mac : net.HardwareAddr) (s : σ) :
    ((k.logged.createIpamIP parser ipaddr mac (s, [])).1,
      (k.logged.createIpamIP parser ipaddr mac (s, [])).2.1) =
      k.createIpamIP parser ipaddr mac s := by
  cases hp : parser (net.IP.String ipaddr) with
  | error e =>
    unfold K8sClient.createIpamIP
    rw [hp]
  | ok ip =>
    rcases hg : k.Client.Get (client.ObjectKeyFromObject (k.ipamIP ip ipaddr mac))
      (k.ipamIP ip ipaddr mac) s with ⟨⟨err, x⟩, s1⟩
    by_cases hnf : apierrors.IsNotFound err = true
    · rw [createIpamIP_not_found k parser ipaddr mac ip s s1 err x hp hg hnf]
      rcases hc : k.Client.Create (k.ipamIP ip ipaddr mac) s1 with ⟨_ | e, s2⟩
      · rw [createIpamIP_logged_created k parser ipaddr mac ip s s1 s2 err x hp hg hnf hc]
      · rw [createIpamIP_logged_create_failed k parser ipaddr mac ip s s1 s2 err x e hp hg hnf hc]
    · cases err with
      | some e =>
        rw [createIpamIP_get_failed k.logged parser ipaddr mac ip _ _ e x hp
          (logged_Get k _ _ _ _ _ _ [] hg) (by simpa using hnf),
          createIpamIP_get_failed k parser ipaddr mac ip _ _ e x hp hg (by simpa using hnf)]
        rfl
      | none =>
        by_cases heq : (k.ipamIP ip ipaddr mac).Spec = x.Spec
        · rw [createIpamIP_logged_unchanged k parser ipaddr mac ip s s1 x hp hg heq,
            createIpamIP_found_equal k parser ipaddr mac ip s s1 x hp hg heq]
        · rcases hd : k.Client.Delete x s1 with ⟨_ | e, s2⟩
          · rw [createIpamIP_deleted k parser ipaddr mac ip s s1 s2 x hp hg heq hd]
            rcases hc : k.Client.Create (k.ipamIP ip ipaddr mac) s2 with ⟨_ | e, s3⟩
            · rw [createIpamIP_logged_replaced k parser ipaddr mac ip s s1 s2 s3 x hp hg heq hd
                hc]
            · rw [createIpamIP_logged_recreate_failed k parser ipaddr mac ip s s1 s2 s3 x e hp
                hg heq hd hc]
          · rw [createIpamIP_delete_failed k.logged parser ipaddr mac ip _ _ _ x e hp
              (logged_Get k _ _ _ _ _ _ [] hg) heq (logged_Delete k _ _ _ _ _ hd),
              createIpamIP_delete_failed k parser ipaddr mac ip _ _ _ x e hp hg heq hd]

/-! ### Text -/

theorem ReplaceAll_scan_single (c0 : Char) (new : List Char) (s : List Char) :
    strings.ReplaceAll.scan [c0] new 0 s = s.flatMap (fun c => if c = c0 then new else [c]) := by
  induction s with
  | nil => rfl
  | cons c cs ih =>
    by_cases h : c = c0
    · subst h
      simp [strings.ReplaceAll.scan, List.isPrefixOf, ih]
    · have h' : ¬ c0 = c := fun e => h e.symm
      simp [strings.ReplaceAll.scan, List.isPrefixOf, ih, h, h']

/-- Replacing `:` by nothing removes every colon and nothing else. -/
theorem ReplaceAll_colon_empty (s : String) :
    strings.ReplaceAll s ":" "" = String.mk (s.data.filter (fun c => c ≠ ':')) := by
  have h1 : (":" : String).data = [':'] := rfl
  have h2 : ("" : String).data = [] := rfl
  unfold strings.ReplaceAll
  rw [h1, h2, if_neg (by simp), ReplaceAll_scan_single]
  congr 1
  induction s.data with
  | nil => rfl
  | cons c cs ih =>
    rw [List.flatMap_cons, ih]
    by_cases h : c = ':' <;> simp [List.filter_cons, h]

/-- Replacing `:` by `_` changes every colon and nothing else. -/
theorem ReplaceAll_colon_underscore (s : String) :
    strings.ReplaceAll s ":" "_" =
      String.mk (s.data.map (fun c => if c = ':' then '_' else c)) := by
  have h1 : (":" : String).data = [':'] := rfl
  have h2 : ("_" : String).data = ['_'] := rfl
  unfold strings.ReplaceAll
  rw [h1, h2, if_neg (by simp), ReplaceAll_scan_single]
  congr 1
  induction s.data with
  | nil => rfl
  | cons c cs ih =>
    rw [List.flatMap_cons, ih]
    by_cases h : c = ':' <;> simp [h]

theorem digitChar_ne_colon (n : Nat) : Nat.digitChar n ≠ ':' := by
  by_cases h : n < 16
  · interval_cases n <;> decide
  · have hstar : Nat.digitChar n = '*' := by
      unfold Nat.digitChar
      iterate 16 rw [if_neg (by omega)]
    rw [hstar]
    decide

/-- The text of a MAC address without its colons is the hex digits of its bytes. -/
theorem HardwareAddr_String_without_colons (mac : net.HardwareAddr) :
    (net.HardwareAddr.String mac).data.filter (fun c => c ≠ ':') =
      mac.flatMap (fun b => [Nat.digitChar (b / 16), Nat.digitChar (b % 16)]) := by
  have key : ∀ (l : List Nat) (first : Bool),
      (net.HardwareAddr.String.go l first).filter (fun c => c ≠ ':') =
        l.flatMap (fun b => [Nat.digitChar (b / 16), Nat.digitChar (b % 16)]) := by
    intro l
    induction l with
    | nil => intro _; rfl
    | cons b rest ih =>
      intro first
      have hrest := ih false
      have h1 := digitChar_ne_colon (b / 16)
      have h2 := digitChar_ne_colon (b % 16)
      cases first <;>
        simp [net.HardwareAddr.String.go, List.filter_cons, h1, h2] <;>
        simpa using hrest
  exact key mac true

/-- Claim C5: `createIpamIP` issues a create only after the read reported not-found or after
a delete of the existing record succeeded. When the read fails with an error other than
not-found, it returns an error, having issued the read only, and the store is as the read
left it; when the delete fails, it returns an error, having issued the read and the delete
only, and the store is as the delete left it. Whenever a create is among the calls issued,
either the read reported not-found and the calls are the read and the create, or the read
found a record with another spec and the calls are the read, the delete of that record, which
returned nil, and then the create, issued on the store as the delete left it. -/
theorem createIpamIP_create_guarded {σ : Type} (k : K8sClient σ)
    (parser : String → Except GoError ipamv1alpha1.IPAddr) (ipaddr : net.IP)
    (mac : net.HardwareAddr) (ip : ipamv1alpha1.IPAddr) (s : σ)
    (hp : parser (net.IP.String ipaddr) = .ok ip) :
    let desired := k.ipamIP ip ipaddr mac
    let key := client.ObjectKeyFromObject desired
    let read := k.Client.Get key desired s
    let existing := read.1.2
    let deleted := k.Client.Delete existing read.2
    let run := k.logged.createIpamIP parser ipaddr mac (s, [])
    (∀ e, read.1.1 = some e → apierrors.IsNotFound (some e) = false →
      run = (some (.wrapf e "Failed to get IP %s in namespace %s"
          [desired.ObjectMeta.Name, desired.ObjectMeta.Namespace]),
        (read.2, [(Call.get key, read.2)]))) ∧
    (read.1.1 = none → desired.Spec ≠ existing.Spec → ∀ e, deleted.1 = some e →
      run = (some (.wrapf e "Failed to delete IP %s in namespace %s"
          [existing.ObjectMeta.Name, existing.ObjectMeta.Namespace]),
        (deleted.2, [(Call.get key, read.2), (Call.delete existing, deleted.2)]))) ∧
    (∀ obj st, (Call.create obj, st) ∈ run.2.2 →
      (apierrors.IsNotFound read.1.1 = true ∧
        run.2.2 = [(Call.get key, read.2),
          (Call.create desired, (k.Client.Create desired read.2).2)]) ∨
      (read.1.1 = none ∧ desired.Spec ≠ existing.Spec ∧ deleted.1 = none ∧
        run.2.2 = [(Call.get key, read.2), (Call.delete existing, deleted.2),
          (Call.create desired, (k.Client.Create desired deleted.2).2)])) := by
  intro desired key read existing deleted run
  have hg0 : k.Client.Get (client.ObjectKeyFromObject (k.ipamIP ip ipaddr mac))
      (k.ipamIP ip ipaddr mac) s = ((read.1.1, existing), read.2) := rfl
  have hg : k.logged.Client.Get (client.ObjectKeyFromObject (k.logged.ipamIP ip ipaddr mac))
      (k.logged.ipamIP ip ipaddr mac) (s, []) =
      ((read.1.1, existing), (read.2, [(Call.get key, read.2)])) := rfl
  have hdl : k.logged.Client.Delete existing (read.2, [(Call.get key, read.2)]) =
      (deleted.1, (deleted.2, [(Call.get key, read.2), (Call.delete existing, deleted.2)])) :=
    rfl
  have hdfail : read.1.1 = none → desired.Spec ≠ existing.Spec → ∀ e, deleted.1 = some e →
      run = (some (.wrapf e "Failed to delete IP %s in namespace %s"
          [existing.ObjectMeta.Name, existing.ObjectMeta.Namespace]),
        (deleted.2, [(Call.get key, read.2), (Call.delete existing, deleted.2)])) := by
    intro hnone hne e hd
    rw [hnone] at hg
    rw [hd] at hdl
    exact createIpamIP_delete_failed k.logged parser ipaddr mac ip _ _ _ existing e hp hg hne hdl
  refine ⟨?_, hdfail, ?_⟩
  · intro e he hnf
    rw [he] at hg
    exact createIpamIP_get_failed k.logged parser ipaddr mac ip _ _ e existing hp hg hnf
  · intro obj st hmem
    by_cases hnf : apierrors.IsNotFound read.1.1 = true
    · left
      refine ⟨hnf, ?_⟩
      rcases hc : k.Client.Create desired read.2 with ⟨_ | e, s2⟩
      · have hrun : run = _ :=
          createIpamIP_logged_created k parser ipaddr mac ip s read.2 s2 read.1.1 existing hp
            hg0 hnf hc
        rw [hrun]
      · have hrun : run = _ :=
          createIpamIP_logged_create_failed k parser ipaddr mac ip s read.2 s2 read.1.1
            existing e hp hg0 hnf hc
        rw [hrun]
    · right
      cases herr : read.1.1 with
      | some e =>
        exfalso
        rw [herr] at hnf hg
        have hrun : run = _ :=
          createIpamIP_get_failed k.logged parser ipaddr mac ip _ _ e existing hp hg
            (by simpa using hnf)
        rw [hrun] at hmem
        simp at hmem
      | none =>
        rw [herr] at hg0
        by_cases hne : desired.Spec = existing.Spec
        · exfalso
          rw [herr] at hg
          have hrun : run = _ :=
            createIpamIP_found_equal k.logged parser ipaddr mac ip _ _ existing hp hg hne
          rw [hrun] at hmem
          simp at hmem
        · cases hd : deleted.1 with
          | some e =>
            exfalso
            rw [hdfail herr hne e hd] at hmem
            simp at hmem
          | none =>
            refine ⟨rfl, hne, rfl, ?_⟩
            have hdel : k.Client.Delete existing read.2 = (none, deleted.2) := by
              rw [← hd]
            rcases hc : k.Client.Create desired deleted.2 with ⟨_ | e, s3⟩
            · have hrun : run = _ :=
                createIpamIP_logged_replaced k parser ipaddr mac ip s read.2 deleted.2 s3
                  existing hp hg0 hne hdel hc
              rw [hrun]
            · have hrun : run = _ :=
                createIpamIP_logged_recreate_failed k parser ipaddr mac ip s read.2 deleted.2 s3
                  existing e hp hg0 hne hdel hc
              rw [hrun]

theorem createIpamIP_create_guarded_witness :
    exampleParser (net.IP.String exampleLinkAddr) = .ok { Net := exampleLinkAddr } ∧
    exampleParser (net.IP.String exampleOtherAddr) = .ok { Net := exampleOtherAddr } ∧
    exampleUnreachableK.logged.createIpamIP exampleParser exampleLinkAddr exampleMAC ([], []) =
      (some (.wrapf (.plain "connection refused") "Failed to get IP %s in namespace %s"
          ["aabbccddeeff-dhcp", "metal"]),
        ([], [(Call.get { Namespace := "metal", Name := "aabbccddeeff-dhcp" }, [])])) ∧
    exampleReadOnlyK.logged.createIpamIP exampleParser exampleOtherAddr exampleMAC
        ([exampleRecord], []) =
      (some (.wrapf (.status .InternalError "forbidden")
          "Failed to delete IP %s in namespace %s" ["aabbccddeeff-dhcp", "metal"]),
        ([exampleRecord],
          [(Call.get { Namespace := "metal", Name := "aabbccddeeff-dhcp" }, [exampleRecord]),
            (Call.delete exampleRecord, [exampleRecord])])) ∧
    (exampleK.logged.createIpamIP exampleParser exampleLinkAddr exampleMAC
        ([exampleConsumedRecord], [])).2.2 =
      [(Call.get { Namespace := "metal", Name := "aabbccddeeff-dhcp" },
          [exampleConsumedRecord]),
        (Call.delete exampleConsumedRecord, []),
        (Call.create exampleRecord, [exampleRecord])] :=
  ⟨rfl, rfl,
    (createIpamIP_create_guarded exampleUnreachableK exampleParser exampleLinkAddr exampleMAC
      { Net := exampleLinkAddr } [] rfl).1 (.plain "connection refused") rfl rfl,
    (createIpamIP_create_guarded exampleReadOnlyK exampleParser exampleOtherAddr exampleMAC
      { Net := exampleOtherAddr } [exampleRecord] rfl).2.1 rfl (by decide)
      (.status .InternalError "forbidden") rfl,
    ((createIpamIP_create_guarded exampleK exampleParser exampleLinkAddr exampleMAC
      { Net := exampleLinkAddr } [exampleConsumedRecord] rfl).2.2 exampleRecord [exampleRecord]
      (by decide)).elim (fun h => absurd h.1 (by decide)) (fun h => h.2.2.2)⟩

/-- On the in-memory store, a record held by a finalizer survives its delete: the read finds
it, the delete returns nil, and the create fails with already-exists. -/
theorem createIpamIP_finalizer_holds_record :
    exampleK.logged.createIpamIP exampleParser exampleLinkAddr exampleMAC
        ([exampleHeldRecord], []) =
      (some (.wrapf (.status .AlreadyExists "already exists")
          "Failed to create IP %s in namespace %s" ["aabbccddeeff-dhcp", "metal"]),
        ([exampleHeldRecord.markDeleted],
          [(Call.get { Namespace := "metal", Name := "aabbccddeeff-dhcp" },
              [exampleHeldRecord]),
            (Call.delete exampleHeldRecord, [exampleHeldRecord.markDeleted]),
            (Call.create exampleRecord, [exampleHeldRecord.markDeleted])])) := by
  decide

/-- The calls `createIpamIP` issues: the read, then nothing, the create, the delete of the
record read, or that delete and the create. -/
theorem createIpamIP_logged_calls {σ : Type} (k : K8sClient σ)
    (parser : String → Except GoError ipamv1alpha1.IPAddr) (ipaddr : net.IP)
    (mac : net.HardwareAddr) (ip : ipamv1alpha1.IPAddr) (s s1 : σ) (err : Option GoError)
    (x : ipamv1alpha1.IP)
    (hp : parser (net.IP.String ipaddr) = .ok ip)
    (hg : k.Client.Get (client.ObjectKeyFromObject (k.ipamIP ip ipaddr mac))
      (k.ipamIP ip ipaddr mac) s = ((err, x), s1)) :
    ∃ rest, (k.logged.createIpamIP parser ipaddr mac (s, [])).2.2.map Prod.fst =
        Call.get (client.ObjectKeyFromObject (k.ipamIP ip ipaddr mac)) :: rest ∧
      (rest = [] ∨ rest = [Call.create (k.ipamIP ip ipaddr mac)] ∨ rest = [Call.delete x] ∨
        rest = [Call.delete x, Call.create (k.ipamIP ip ipaddr mac)]) := by
  by_cases hnf : apierrors.IsNotFound err = true
  · rcases hc : k.Client.Create (k.ipamIP ip ipaddr mac) s1 with ⟨_ | e, s2⟩
    · rw [createIpamIP_logged_created k parser ipaddr mac ip s s1 s2 err x hp hg hnf hc]
      exact ⟨_, rfl, Or.inr (Or.inl rfl)⟩
    · rw [createIpamIP_logged_create_failed k parser ipaddr mac ip s s1 s2 err x e hp hg hnf hc]
      exact ⟨_, rfl, Or.inr (Or.inl rfl)⟩
  · cases err with
    | some e =>
      rw [createIpamIP_get_failed k.logged parser ipaddr mac ip _ _ e x hp
        (logged_Get k _ _ _ _ _ _ [] hg) (by simpa using hnf)]
      exact ⟨_, rfl, Or.inl rfl⟩
    | none =>
      by_cases heq : (k.ipamIP ip ipaddr mac).Spec = x.Spec
      · rw [createIpamIP_logged_unchanged k parser ipaddr mac ip s s1 x hp hg heq]
        exact ⟨_, rfl, Or.inl rfl⟩
      · rcases hd : k.Client.Delete x s1 with ⟨_ | e, s2⟩
        · rcases hc : k.Client.Create (k.ipamIP ip ipaddr mac) s2 with ⟨_ | e, s3⟩
          · rw [createIpamIP_logged_replaced k parser ipaddr mac ip s s1 s2 s3 x hp hg heq hd hc]
            exact ⟨_, rfl, Or.inr (Or.inr (Or.inr rfl))⟩
          · rw [createIpamIP_logged_recreate_failed k parser ipaddr mac ip s s1 s2 s3 x e hp hg
              heq hd hc]
            exact ⟨_, rfl, Or.inr (Or.inr (Or.inr rfl))⟩
        · rw [createIpamIP_delete_failed k.logged parser ipaddr mac ip _ _ _ x e hp
            (logged_Get k _ _ _ _ _ _ [] hg) heq (logged_Delete k _ _ _ _ _ hd)]
          exact ⟨_, rfl, Or.inr (Or.inr (Or.inl rfl))⟩

/-- Claim C9: the record `createIpamIP` works on is a function of its inputs. Its name is the
colon-hex text of the MAC with every colon removed, followed by `-dhcp`, whatever the address,
the namespace and the subnet; its labels are `ip`, the text of the address with every `:`
replaced by `_`, `mac`, the colon-stripped MAC, and `origin`, `dhcp`; its namespace is the
client's; its spec holds the parsed address and a reference to the client's subnet. The read
is issued under its name and namespace, the create is issued on it, and the delete on the
record the read returned. -/
theorem createIpamIP_record_deterministic {σ : Type} (k : K8sClient σ)
    (parser : String → Except GoError ipamv1alpha1.IPAddr) (ipaddr : net.IP)
    (mac : net.HardwareAddr) (ip : ipamv1alpha1.IPAddr) (s : σ)
    (hp : parser (net.IP.String ipaddr) = .ok ip) :
    let desired := k.ipamIP ip ipaddr mac
    let macKey := String.mk ((net.HardwareAddr.String mac).data.filter (fun c => c ≠ ':'))
    let read := k.Client.Get { Namespace := k.Namespace, Name := macKey ++ "-dhcp" } desired s
    desired.ObjectMeta.Name = macKey ++ "-dhcp" ∧
    macKey.data = mac.flatMap (fun b => [Nat.digitChar (b / 16), Nat.digitChar (b % 16)]) ∧
    (∀ (τ : Type) (k' : K8sClient τ) (ip' : ipamv1alpha1.IPAddr) (ipaddr' : net.IP),
      (k'.ipamIP ip' ipaddr' mac).ObjectMeta.Name = desired.ObjectMeta.Name) ∧
    desired.ObjectMeta.Labels =
      [("ip", String.mk ((net.IP.String ipaddr).data.map (fun c => if c = ':' then '_' else c))),
       ("mac", macKey), ("origin", "dhcp")] ∧
    desired.ObjectMeta.Namespace = k.Namespace ∧
    desired.Spec = { IP := some ip, Subnet := { Name := k.Subnet }, Consumer := none } ∧
    ∃ rest, (k.logged.createIpamIP parser ipaddr mac (s, [])).2.2.map Prod.fst =
        Call.get { Namespace := k.Namespace, Name := macKey ++ "-dhcp" } :: rest ∧
      (rest = [] ∨ rest = [Call.create desired] ∨ rest = [Call.delete read.1.2] ∨
        rest = [Call.delete read.1.2, Call.create desired]) := by
  intro desired macKey read
  have hname : ∀ (τ : Type) (k' : K8sClient τ) (ip' : ipamv1alpha1.IPAddr) (ipaddr' : net.IP),
      (k'.ipamIP ip' ipaddr' mac).ObjectMeta.Name = macKey ++ "-dhcp" := by
    intro τ k' ip' ipaddr'
    show strings.ReplaceAll (net.HardwareAddr.String mac) ":" "" ++ "-" ++ origin = _
    rw [ReplaceAll_colon_empty, String.append_assoc]
    rfl
  have hkey : client.ObjectKeyFromObject desired =
      { Namespace := k.Namespace, Name := macKey ++ "-dhcp" } := by
    show client.ObjectKey.mk _ desired.ObjectMeta.Name = _
    rw [hname σ k ip ipaddr]
    rfl
  refine ⟨hname σ k ip ipaddr, HardwareAddr_String_without_colons mac, ?_, ?_, rfl, rfl, ?_⟩
  · intro τ k' ip' ipaddr'
    rw [hname τ k' ip' ipaddr', hname σ k ip ipaddr]
  · show [("ip", strings.ReplaceAll (net.IP.String ipaddr) ":" "_"),
      ("mac", strings.ReplaceAll (net.HardwareAddr.String mac) ":" ""), ("origin", origin)] = _
    rw [ReplaceAll_colon_underscore, ReplaceAll_colon_empty]
    rfl
  · have hg : k.Client.Get (client.ObjectKeyFromObject (k.ipamIP ip ipaddr mac))
        (k.ipamIP ip ipaddr mac) s = ((read.1.1, read.1.2), read.2) := by
      show k.Client.Get (client.ObjectKeyFromObject desired) desired s = _
      rw [hkey]
    have := createIpamIP_logged_calls k parser ipaddr mac ip s read.2 read.1.1 read.1.2 hp hg
    rw [show client.ObjectKeyFromObject (k.ipamIP ip ipaddr mac) =
      { Namespace := k.Namespace, Name := macKey ++ "-dhcp" } from hkey] at this
    exact this

theorem createIpamIP_record_deterministic_witness :
    exampleParser (net.IP.String exampleLinkAddr) = .ok { Net := exampleLinkAddr } ∧
    (exampleK.ipamIP { Net := exampleLinkAddr } exampleLinkAddr exampleMAC).ObjectMeta.Name =
      "aabbccddeeff-dhcp" ∧
    (exampleK.ipamIP { Net := exampleLinkAddr } exampleLinkAddr exampleMAC).ObjectMeta.Labels =
      [("ip", "fe80__a8bb_ccff_fedd_eeff"), ("mac", "aabbccddeeff"), ("origin", "dhcp")] ∧
    (exampleK.ipamIP { Net := exampleLinkAddr } exampleLinkAddr exampleMAC).ObjectMeta.Namespace
      = "metal" ∧
    (exampleK.ipamIP { Net := exampleLinkAddr } exampleLinkAddr exampleMAC).Spec =
      { IP := some { Net := exampleLinkAddr }, Subnet := { Name := "dhcp-subnet" } } :=
  have h := createIpamIP_record_deterministic exampleK exampleParser exampleLinkAddr exampleMAC
    { Net := exampleLinkAddr } [] rfl
  ⟨rfl, h.1.trans (by decide), h.2.2.2.1.trans (by decide), h.2.2.2.2.1,
    h.2.2.2.2.2.1⟩

/-- Claim C3: on the object store, when a first `createIpamIP` call returns no error, a
second call with the same MAC, address and client returns no error, issues the read only
(neither a delete nor a create), and leaves the store as it was, holding exactly one record
under the name derived from the MAC, with the desired spec. -/
theorem createIpamIP_idempotent (ns subnet : String)
    (parser : String → Except GoError ipamv1alpha1.IPAddr) (ipaddr : net.IP)
    (mac : net.HardwareAddr) (s s1 : Store) (log1 : List (Call × Store))
    (hwf : Store.WF s)
    (h1 : (memK8s ns subnet).logged.createIpamIP parser ipaddr mac (s, []) =
      (none, (s1, log1))) :
    ∃ ip, parser (net.IP.String ipaddr) = .ok ip ∧
      (memK8s ns subnet).logged.createIpamIP parser ipaddr mac (s1, []) =
        (none, (s1,
          [(Call.get (client.ObjectKeyFromObject ((memK8s ns subnet).ipamIP ip ipaddr mac)),
            s1)])) ∧
      (∃ r, Store.under s1
          (client.ObjectKeyFromObject ((memK8s ns subnet).ipamIP ip ipaddr mac)) = [r] ∧
        r.Spec = ((memK8s ns subnet).ipamIP ip ipaddr mac).Spec ∧
        r.ObjectMeta.Name =
          strings.ReplaceAll (net.HardwareAddr.String mac) ":" "" ++ "-" ++ origin) ∧
      Store.WF s1 := by
  cases hp : parser (net.IP.String ipaddr) with
  | error e =>
    exfalso
    unfold K8sClient.createIpamIP at h1
    rw [hp] at h1
    simp at h1
  | ok ip =>
    refine ⟨ip, rfl, ?_⟩
    cases hl : Store.lookup s
        (client.ObjectKeyFromObject ((memK8s ns subnet).ipamIP ip ipaddr mac)) with
    | none =>
      rw [createIpamIP_mem_absent ns subnet parser ipaddr mac ip s hp hl] at h1
      have hs1 : s1 = s ++ [(memK8s ns subnet).ipamIP ip ipaddr mac] := by
        simp only [Prod.mk.injEq, true_and] at h1
        exact h1.1.symm
      subst hs1
      have hl1 := Store.lookup_append_new s _ hl
      refine ⟨createIpamIP_mem_unchanged ns subnet parser ipaddr mac ip _ _ hp hl1 rfl,
        ⟨_, ?_, rfl, rfl⟩, Store.WF_append_new s _ hwf hl⟩
      rw [Store.under_append, Store.under_of_lookup_none s _ hl]
      rfl
    | some x =>
      by_cases heq : ((memK8s ns subnet).ipamIP ip ipaddr mac).Spec = x.Spec
      · rw [createIpamIP_mem_unchanged ns subnet parser ipaddr mac ip s x hp hl heq] at h1
        have hs1 : s1 = s := by
          simp only [Prod.mk.injEq, true_and] at h1
          exact h1.1.symm
        subst hs1
        refine ⟨createIpamIP_mem_unchanged ns subnet parser ipaddr mac ip _ x hp hl heq,
          ⟨x, Store.under_of_lookup _ _ x hwf hl, heq.symm, ?_⟩, hwf⟩
        have hk := Store.lookup_key _ _ x hl
        exact congrArg client.ObjectKey.Name hk
      · by_cases hfin : x.ObjectMeta.Finalizers = []
        swap
        · exfalso
          rw [createIpamIP_mem_held ns subnet parser ipaddr mac ip s x hp hl heq hfin] at h1
          simp at h1
        rw [createIpamIP_mem_replaced ns subnet parser ipaddr mac ip s x hp hl heq hfin] at h1
        have hs1 : s1 = Store.remove s
            (client.ObjectKeyFromObject ((memK8s ns subnet).ipamIP ip ipaddr mac)) ++
            [(memK8s ns subnet).ipamIP ip ipaddr mac] := by
          simp only [Prod.mk.injEq, true_and] at h1
          exact h1.1.symm
        subst hs1
        have hlr := Store.lookup_remove s
          (client.ObjectKeyFromObject ((memK8s ns subnet).ipamIP ip ipaddr mac))
        have hl1 := Store.lookup_append_new _ _ hlr
        refine ⟨createIpamIP_mem_unchanged ns subnet parser ipaddr mac ip _ _ hp hl1 rfl,
          ⟨_, ?_, rfl, rfl⟩, Store.WF_append_new _ _ (Store.WF_remove s _ hwf) hlr⟩
        rw [Store.under_append, Store.under_of_lookup_none _ _ hlr]
        rfl

theorem createIpamIP_idempotent_witness :
    Store.WF [exampleConsumedRecord] ∧
    exampleK.logged.createIpamIP exampleParser exampleLinkAddr exampleMAC
      ([exampleConsumedRecord], []) =
      (none, ([exampleRecord],
        [(Call.get { Namespace := "metal", Name := "aabbccddeeff-dhcp" },
            [exampleConsumedRecord]),
          (Call.delete exampleConsumedRecord, []),
          (Call.create exampleRecord, [exampleRecord])])) ∧
    ∃ ip, exampleParser (net.IP.String exampleLinkAddr) = .ok ip ∧
      exampleK.logged.createIpamIP exampleParser exampleLinkAddr exampleMAC
          ([exampleRecord], []) =
        (none, ([exampleRecord],
          [(Call.get (client.ObjectKeyFromObject (exampleK.ipamIP ip exampleLinkAddr exampleMAC)),
            [exampleRecord])])) ∧
      (∃ r, Store.under [exampleRecord]
          (client.ObjectKeyFromObject (exampleK.ipamIP ip exampleLinkAddr exampleMAC)) = [r] ∧
        r.Spec = (exampleK.ipamIP ip exampleLinkAddr exampleMAC).Spec ∧
        r.ObjectMeta.Name =
          strings.ReplaceAll (net.HardwareAddr.String exampleMAC) ":" "" ++ "-" ++ origin) ∧
      Store.WF [exampleRecord] :=
  have h1 : exampleK.logged.createIpamIP exampleParser exampleLinkAddr exampleMAC
      ([exampleConsumedRecord], []) =
      (none, ([exampleRecord],
        [(Call.get { Namespace := "metal", Name := "aabbccddeeff-dhcp" },
            [exampleConsumedRecord]),
          (Call.delete exampleConsumedRecord, []),
          (Call.create exampleRecord, [exampleRecord])])) := by decide
  ⟨by decide, h1,
    createIpamIP_idempotent "metal" "dhcp-subnet" exampleParser exampleLinkAddr exampleMAC
      [exampleConsumedRecord] [exampleRecord] _ (by decide) h1⟩

/-- Claim C4: on the object store, when the store holds the record written for address `a`
and `createIpamIP` is called for the same MAC with a different address `b`, it returns no
error after exactly three calls: the read, the delete of the record of `a`, and then the create
of the record of `b`. The store ends with exactly one record under the name of the MAC, whose
address is `b`; the record of `a` is absent; and no store state along the way holds both
records. -/
theorem createIpamIP_replace_on_change (ns subnet : String)
    (parser : String → Except GoError ipamv1alpha1.IPAddr) (a b : net.IP)
    (mac : net.HardwareAddr) (pa pb : ipamv1alpha1.IPAddr) (s : Store)
    (hwf : Store.WF s)
    (_ha : parser (net.IP.String a) = .ok pa) (hb : parser (net.IP.String b) = .ok pb)
    (hab : pa ≠ pb)
    (hs : Store.lookup s (client.ObjectKeyFromObject ((memK8s ns subnet).ipamIP pa a mac)) =
      some ((memK8s ns subnet).ipamIP pa a mac)) :
    let recA := (memK8s ns subnet).ipamIP pa a mac
    let recB := (memK8s ns subnet).ipamIP pb b mac
    let key := client.ObjectKeyFromObject recB
    let s1 := Store.remove s key
    let s2 := s1 ++ [recB]
    (memK8s ns subnet).logged.createIpamIP parser b mac (s, []) =
      (none, (s2, [(Call.get key, s), (Call.delete recA, s1), (Call.create recB, s2)])) ∧
    Store.under s2 key = [recB] ∧
    recB.Spec.IP = some pb ∧
    client.ObjectKeyFromObject recA = key ∧
    recA ∉ s2 ∧
    (∀ st ∈ [s, s1, s2], ¬ (recA ∈ st ∧ recB ∈ st)) ∧
    Store.WF s2 := by
  intro recA recB key s1 s2
  have hkey : client.ObjectKeyFromObject recA = key := rfl
  have hne : recB.Spec ≠ recA.Spec := by
    intro h
    have : recB.Spec.IP = recA.Spec.IP := congrArg ipamv1alpha1.IPSpec.IP h
    exact hab (Option.some.inj this).symm
  have hAB : recA ≠ recB := fun h => hne (congrArg ipamv1alpha1.IP.Spec h).symm
  have hl1 : Store.lookup s1 key = none := Store.lookup_remove s key
  have hA1 : recA ∉ s1 := by
    intro h
    have := (List.mem_filter.mp h).2
    simp [hkey] at this
  have hA2 : recA ∉ s2 := by
    intro h
    rcases List.mem_append.mp h with h | h
    · exact hA1 h
    · exact hAB (List.mem_singleton.mp h)
  have hB0 : recB ∉ s := by
    intro h
    have hu : recB ∈ Store.under s key := List.mem_filter.mpr ⟨h, by simp [key]⟩
    rw [Store.under_of_lookup s key recA hwf hs] at hu
    exact hAB (List.mem_singleton.mp hu).symm
  refine ⟨createIpamIP_mem_replaced ns subnet parser b mac pb s recA hb hs hne rfl, ?_, rfl,
    hkey,
    hA2, ?_, Store.WF_append_new _ _ (Store.WF_remove s _ hwf) hl1⟩
  · show Store.under (s1 ++ [recB]) (client.ObjectKeyFromObject recB) = [recB]
    rw [Store.under_append, Store.under_of_lookup_none _ _ hl1]
    rfl
  · intro st hst
    simp only [List.mem_cons, List.mem_singleton, List.not_mem_nil, or_false] at hst
    rcases hst with h | h | h
    · subst h
      exact fun hboth => hB0 hboth.2
    · subst h
      exact fun hboth => hA1 hboth.1
    · subst h
      exact fun hboth => hA2 hboth.1

theorem createIpamIP_replace_on_change_witness :
    Store.WF [exampleRecord] ∧
    exampleParser (net.IP.String exampleLinkAddr) = .ok { Net := exampleLinkAddr } ∧
    exampleParser (net.IP.String exampleOtherAddr) = .ok { Net := exampleOtherAddr } ∧
    ({ Net := exampleLinkAddr } : ipamv1alpha1.IPAddr) ≠ { Net := exampleOtherAddr } ∧
    Store.lookup [exampleRecord] (client.ObjectKeyFromObject exampleRecord) =
      some exampleRecord ∧
    exampleK.logged.createIpamIP exampleParser exampleOtherAddr exampleMAC
        ([exampleRecord], []) =
      (none, ([exampleK.ipamIP { Net := exampleOtherAddr } exampleOtherAddr exampleMAC],
        [(Call.get { Namespace := "metal", Name := "aabbccddeeff-dhcp" }, [exampleRecord]),
          (Call.delete exampleRecord, []),
          (Call.create (exampleK.ipamIP { Net := exampleOtherAddr } exampleOtherAddr exampleMAC),
            [exampleK.ipamIP { Net := exampleOtherAddr } exampleOtherAddr exampleMAC])])) :=
  ⟨by decide, rfl, rfl, by decide, by decide,
    (createIpamIP_replace_on_change "metal" "dhcp-subnet" exampleParser exampleLinkAddr
      exampleOtherAddr exampleMAC { Net := exampleLinkAddr } { Net := exampleOtherAddr }
      [exampleRecord] (by decide) rfl rfl (by decide) (by decide)).1⟩

/-- Claim C6, as stated, fails: a second handler of the same request creates the record
between the read and the create of this one; the create fails with already-exists, and
`createIpamIP` returns that error, wrapped. -/
theorem createIpamIP_already_exists_is_returned :
    exampleRacingK.logged.createIpamIP exampleParser exampleLinkAddr exampleMAC ([], []) =
      (some (.wrapf (.status .AlreadyExists "already exists")
          "Failed to create IP %s in namespace %s" ["aabbccddeeff-dhcp", "metal"]),
        ([exampleRecord],
          [(Call.get { Namespace := "metal", Name := "aabbccddeeff-dhcp" }, [exampleRecord]),
            (Call.create exampleRecord, [exampleRecord])])) := by
  decide

/-- Claim C6, amended: when the create fails, with an already-exists error or with any other
error, `createIpamIP` returns an error: the error of the create wrapped in the message
`Failed to create IP ... in namespace ...`; the store is as the create left it. -/
theorem createIpamIP_create_failure_returned {σ : Type} (k : K8sClient σ)
    (parser : String → Except GoError ipamv1alpha1.IPAddr) (ipaddr : net.IP)
    (mac : net.HardwareAddr) (ip : ipamv1alpha1.IPAddr) (s : σ)
    (hp : parser (net.IP.String ipaddr) = .ok ip) :
    let desired := k.ipamIP ip ipaddr mac
    let read := k.Client.Get (client.ObjectKeyFromObject desired) desired s
    let deleted := k.Client.Delete read.1.2 read.2
    (apierrors.IsNotFound read.1.1 = true →
      ∀ e, (k.Client.Create desired read.2).1 = some e →
        k.createIpamIP parser ipaddr mac s =
          (some (.wrapf e "Failed to create IP %s in namespace %s"
            [desired.ObjectMeta.Name, desired.ObjectMeta.Namespace]),
            (k.Client.Create desired read.2).2)) ∧
    (read.1.1 = none → desired.Spec ≠ read.1.2.Spec → deleted.1 = none →
      ∀ e, (k.Client.Create desired deleted.2).1 = some e →
        k.createIpamIP parser ipaddr mac s =
          (some (.wrapf e "Failed to create IP %s in namespace %s"
            [desired.ObjectMeta.Name, desired.ObjectMeta.Namespace]),
            (k.Client.Create desired deleted.2).2)) := by
  intro desired read deleted
  have hg : k.Client.Get (client.ObjectKeyFromObject (k.ipamIP ip ipaddr mac))
      (k.ipamIP ip ipaddr mac) s = ((read.1.1, read.1.2), read.2) := rfl
  refine ⟨?_, ?_⟩
  · intro hnf e he
    rw [createIpamIP_not_found k parser ipaddr mac ip s read.2 read.1.1 read.1.2 hp hg hnf]
    have hc : k.Client.Create desired read.2 = (some e, (k.Client.Create desired read.2).2) := by
      rw [← he]
    show (match k.Client.Create desired read.2 with
      | (some err, s) => _
      | (none, s) => _) = _
    rw [hc]
  · intro hnone hne hd e he
    rw [hnone] at hg
    have hdel : k.Client.Delete read.1.2 read.2 = (none, deleted.2) := by
      rw [← hd]
    rw [createIpamIP_deleted k parser ipaddr mac ip s read.2 deleted.2 read.1.2 hp hg hne hdel]
    have hc : k.Client.Create desired deleted.2 =
        (some e, (k.Client.Create desired deleted.2).2) := by
      rw [← he]
    show (match k.Client.Create desired deleted.2 with
      | (some err, s) => _
      | (none, s) => _) = _
    rw [hc]

theorem createIpamIP_create_failure_returned_witness :
    exampleParser (net.IP.String exampleLinkAddr) = .ok { Net := exampleLinkAddr } ∧
    exampleRacingK.createIpamIP exampleParser exampleLinkAddr exampleMAC [] =
      (some (.wrapf (.status .AlreadyExists "already exists")
          "Failed to create IP %s in namespace %s" ["aabbccddeeff-dhcp", "metal"]),
        [exampleRecord]) :=
  ⟨rfl,
    (createIpamIP_create_failure_returned exampleRacingK exampleParser exampleLinkAddr
      exampleMAC { Net := exampleLinkAddr } [] rfl).1 rfl
      (.status .AlreadyExists "already exists") rfl⟩

/-- Claim C10, at the input where the code departs from it: the store holds a record under
the derived name whose address and subnet reference are the desired ones and which carries a
consumer reference. The claim, and the comment `delete existing if ip differs` above the
comparison, say that nothing is deleted; `createIpamIP` compares the whole spec, deletes the
record and creates it anew without the consumer reference. -/
theorem createIpamIP_consumer_reference_is_compared :
    client.ObjectKeyFromObject exampleConsumedRecord =
        client.ObjectKeyFromObject exampleRecord ∧
      exampleConsumedRecord.Spec.IP = exampleRecord.Spec.IP ∧
      exampleConsumedRecord.Spec.Subnet = exampleRecord.Spec.Subnet ∧
      exampleK.logged.createIpamIP exampleParser exampleLinkAddr exampleMAC
          ([exampleConsumedRecord], []) =
        (none, ([exampleRecord],
          [(Call.get { Namespace := "metal", Name := "aabbccddeeff-dhcp" },
              [exampleConsumedRecord]),
            (Call.delete exampleConsumedRecord, []),
            (Call.create exampleRecord, [exampleRecord])])) := by
  decide

end FeDHCP
